import Mathlib

/-!
# qingcloud-csi: storage-class resolution and the attach tables

A shallow embedding of `pkg/disk/driver/storageclass.go` and
`pkg/disk/driver/types.go`.

* Go `int` / `int64` values are `Int`; the code does no arithmetic on them, and
  `Atoi` only returns values of the 64-bit range.
* Go strings are `String`.
* A Go `map[string]string` is the list of its entries in the order in which one
  `range` loop visits them; the keys of a map are pairwise distinct
  (`IsGoMap`), and any permutation of the list is another possible order.
* A Go `map[K]V` literal that is only read is an association list, read with
  `List.lookup`.
* A function returning `(*T, error)` returns `Except Err T`; a method with a
  pointer receiver that returns `error` returns the new receiver together with
  `Option Err`.
-/

namespace Driver

/-! ## Standard-library functions used by the driver -/

/-- Go `unicode.ToLower` as far as the driver can observe it. It is exact on ASCII
and on the two code points outside ASCII whose lower case is an ASCII letter
(U+0130 and U+212A); any other code point is left as it is, and its Go lower case
is not ASCII either, so comparisons with the ASCII key names are not affected. -/
def toLowerRune (c : Char) : Char :=
  if 65 ≤ c.toNat ∧ c.toNat ≤ 90 then Char.ofNat (c.toNat + 32)
  else if c.toNat = 0x130 then Char.ofNat 105
  else if c.toNat = 0x212A then Char.ofNat 107
  else c

/-- Go `strings.ToLower`, rune by rune through `toLowerRune`: equal to the Go
function on ASCII strings, and equal to it in every comparison with an ASCII
string, which is how the driver uses it. -/
def ToLower (s : String) : String :=
  ⟨s.data.map toLowerRune⟩

/-- Go `len(s)` of a string: its length in bytes. -/
def len (s : String) : Nat :=
  s.utf8ByteSize

/-- Go `strings.ReplaceAll(s, string(old), "")`: every occurrence of the
one-character string `old` is removed. -/
def ReplaceAll (s : String) (old : Char) : String :=
  ⟨s.data.filter (fun c => c != old)⟩

/-- Splitting of a character list at every occurrence of `sep`. -/
def splitChars (sep : Char) : List Char → List (List Char)
  | [] => [[]]
  | c :: cs =>
    if c = sep then [] :: splitChars sep cs
    else
      match splitChars sep cs with
      | [] => [[c]]
      | w :: ws => (c :: w) :: ws

/-- Go `strings.Split(s, string(sep))` for a one-character separator: the
substrings between the separators, in order; the empty string gives one empty
substring. -/
def Split (s : String) (sep : Char) : List String :=
  (splitChars sep s.data).map String.mk

/-- Errors of the driver. -/
inductive Err where
  /-- The `*strconv.NumError` of `strconv.Atoi` on `num` (bad digits or out of range) -/
  | numError (num : String)
  /-- Text `unsupported filesystem type %s` -/
  | unsupportedFilesystem (fs : String)
  /-- Text `unsupported volume type %d` -/
  | unsupportedVolumeType (volType : Int)
  /-- Text `unsupported replica %d` -/
  | unsupportedReplica (repl : Int)
  /-- Text `volume required bytes %d greater than limit bytes %d` -/
  | requiredGreaterThanLimit (res : Int) (limit : Int)
  /-- A nil pointer dereference (run-time panic) -/
  | nilPointer
  deriving DecidableEq, Repr

/-- Value of a decimal digit. -/
def digitVal (c : Char) : Option Nat :=
  if 48 ≤ c.toNat ∧ c.toNat ≤ 57 then some (c.toNat - 48) else none

/-- Value of a string of decimal digits, `none` when a character is not a digit. -/
def parseDigits : List Char → Nat → Option Nat
  | [], acc => some acc
  | c :: cs, acc =>
    match digitVal c with
    | none => none
    | some d => parseDigits cs (acc * 10 + d)

/-- Go `strconv.Atoi` with a 64-bit `int`: an optional sign, then one or more
decimal digits, and the value must fit in 64 bits. -/
def Atoi (s : String) : Except Err Int :=
  let body : Bool × List Char :=
    match s.data with
    | c :: cs =>
      if c = Char.ofNat 45 then (true, cs)
      else if c = Char.ofNat 43 then (false, cs)
      else (false, c :: cs)
    | [] => (false, [])
  if body.2 = [] then .error (.numError s)
  else
    match parseDigits body.2 0 with
    | none => .error (.numError s)
    | some n =>
      let v : Int := if body.1 then -(n : Int) else (n : Int)
      if v < -(2 : Int) ^ 63 ∨ (2 : Int) ^ 63 ≤ v then .error (.numError s) else .ok v

/-! ## types.go -/

abbrev VolumeType := Int

abbrev InstanceType := Int

def HighPerformanceVolumeType : VolumeType := 0

def HighCapacityVolumeType : VolumeType := 2

def SuperHighPerformanceVolumeType : VolumeType := 3

def NeonSANVolumeType : VolumeType := 5

def NeonSANHDDVolumeType : VolumeType := 6

def StandardVolumeType : VolumeType := 100

def SSDEnterpriseVolumeType : VolumeType := 200

def DefaultVolumeType : VolumeType := StandardVolumeType

def VolumeTypeName : List (VolumeType × String) :=
  [ (HighPerformanceVolumeType, "HighPerformance"),
    (HighCapacityVolumeType, "HighCapacity"),
    (SuperHighPerformanceVolumeType, "SuperHighPerformance"),
    (NeonSANVolumeType, "NeonSAN"),
    (NeonSANHDDVolumeType, "NeonSANHDD"),
    (StandardVolumeType, "Standard"),
    (SSDEnterpriseVolumeType, "SSDEnterprise") ]

def VolumeTypeToStepSize : List (VolumeType × Int) :=
  [ (HighPerformanceVolumeType, 10),
    (HighCapacityVolumeType, 50),
    (SuperHighPerformanceVolumeType, 10),
    (NeonSANVolumeType, 100),
    (NeonSANHDDVolumeType, 100),
    (StandardVolumeType, 10),
    (SSDEnterpriseVolumeType, 10) ]

def VolumeTypeToMaxSize : List (VolumeType × Int) :=
  [ (HighPerformanceVolumeType, 2000),
    (HighCapacityVolumeType, 5000),
    (SuperHighPerformanceVolumeType, 2000),
    (NeonSANVolumeType, 50000),
    (NeonSANHDDVolumeType, 50000),
    (StandardVolumeType, 2000),
    (SSDEnterpriseVolumeType, 2000) ]

def HighPerformanceInstanceType : InstanceType := 0

def SuperHighPerformanceInstanceType : InstanceType := 1

def SuperHighPerformanceSANInstanceType : InstanceType := 6

def HighPerformanceSANInstanceType : InstanceType := 7

def StandardInstanceType : InstanceType := 101

def Enterprise1InstanceType : InstanceType := 201

def Enterprise2InstanceType : InstanceType := 202

def EnterpriseCompute3InstanceType : InstanceType := 203

def PremiumInstanceType : InstanceType := 301

def InstanceTypeName : List (InstanceType × String) :=
  [ (0, "HighPerformance"),
    (1, "SuperHighPerformance"),
    (6, "SuperHighPerformanceSAN"),
    (7, "HighPerformanceSAN"),
    (101, "Standard"),
    (201, "Enterprise1"),
    (202, "Enterprise2"),
    (203, "EnterpriseCompute3"),
    (301, "Premium") ]

def InstanceTypeAttachPreferred : List (InstanceType × VolumeType) :=
  [ (HighPerformanceInstanceType, HighPerformanceVolumeType),
    (SuperHighPerformanceInstanceType, SuperHighPerformanceVolumeType),
    (SuperHighPerformanceSANInstanceType, NeonSANVolumeType),
    (HighPerformanceSANInstanceType, NeonSANVolumeType),
    (StandardInstanceType, StandardVolumeType),
    (Enterprise1InstanceType, SSDEnterpriseVolumeType),
    (Enterprise2InstanceType, SSDEnterpriseVolumeType),
    (EnterpriseCompute3InstanceType, SSDEnterpriseVolumeType),
    (PremiumInstanceType, SSDEnterpriseVolumeType) ]

def VolumeTypeAttachConstraint : List (VolumeType × List InstanceType) :=
  [ (HighPerformanceVolumeType,
      [ HighPerformanceInstanceType,
        StandardInstanceType ]),
    (HighCapacityVolumeType,
      [ HighPerformanceInstanceType,
        SuperHighPerformanceInstanceType,
        StandardInstanceType,
        Enterprise1InstanceType,
        Enterprise2InstanceType,
        EnterpriseCompute3InstanceType,
        PremiumInstanceType ]),
    (SuperHighPerformanceVolumeType,
      [ SuperHighPerformanceInstanceType,
        Enterprise1InstanceType,
        Enterprise2InstanceType,
        EnterpriseCompute3InstanceType,
        PremiumInstanceType ]),
    (NeonSANVolumeType,
      [ HighPerformanceInstanceType,
        SuperHighPerformanceInstanceType,
        SuperHighPerformanceSANInstanceType,
        StandardInstanceType,
        Enterprise1InstanceType,
        Enterprise2InstanceType,
        EnterpriseCompute3InstanceType,
        PremiumInstanceType ]),
    (NeonSANHDDVolumeType,
      [ HighPerformanceInstanceType,
        SuperHighPerformanceInstanceType,
        HighPerformanceSANInstanceType,
        StandardInstanceType,
        Enterprise1InstanceType,
        Enterprise2InstanceType,
        EnterpriseCompute3InstanceType,
        PremiumInstanceType ]),
    (StandardVolumeType,
      [ HighPerformanceInstanceType,
        StandardInstanceType ]),
    (SSDEnterpriseVolumeType,
      [ SuperHighPerformanceInstanceType,
        Enterprise1InstanceType,
        Enterprise2InstanceType,
        EnterpriseCompute3InstanceType,
        PremiumInstanceType ]) ]

def DiskSingleReplicaType : Int := 1

def DiskMultiReplicaType : Int := 2

def DefaultDiskReplicaType : Int := DiskMultiReplicaType

/-- Go `m[k]` on a map whose values are slices: the nil (empty) slice when `k`
is not a key. -/
def indexSlice {α : Type} (m : List (Int × List α)) (k : Int) : List α :=
  match m.lookup k with
  | some l => l
  | none => []

/-- The `for ... range` loop of `ValidateAttachedOn`. -/
def ValidateAttachedOn.loop (i : InstanceType) : List InstanceType → Bool
  | [] => false
  | iType :: rest => if iType = i then true else ValidateAttachedOn.loop i rest

def VolumeType.ValidateAttachedOn (v : VolumeType) (i : InstanceType) : Bool :=
  ValidateAttachedOn.loop i (indexSlice VolumeTypeAttachConstraint v)

def VolumeType.String (v : VolumeType) : String :=
  match VolumeTypeName.lookup v with
  | some name => name
  | none => ""

def VolumeType.IsValid (v : VolumeType) : Bool :=
  match VolumeTypeName.lookup v with
  | none => false
  | some _ => true

def InstanceType.IsValid (i : InstanceType) : Bool :=
  match InstanceTypeName.lookup i with
  | none => false
  | some _ => true

/-! ## storageclass.go -/

def StorageClassTypeName : String := "type"

def StorageClassFsTypeName : String := "fsType"

def StorageClassReplicaName : String := "replica"

def StorageClassTagsName : String := "tags"

/-- What the driver uses of the rest of the repository, whose source is not
part of this development: the constants `common.DefaultFileSystem` and
`common.Gib`, and the predicate `IsValidFileSystemType`. -/
structure Externals where
  DefaultFileSystem : String
  Gib : Int
  IsValidFileSystemType : String → Bool

/-- Modelled from the spec: `IsValidReplica` is not among the sources; the spec
says that the replica count must be one of the two supported replica counts
(1 or 2), and that no other value is accepted. -/
def IsValidReplica (replica : Int) : Bool :=
  replica = DiskSingleReplicaType ∨ replica = DiskMultiReplicaType

/-- Modelled from the spec: the declaration of `Topology` is not among the
sources; it carries an instance-type identifier, read by `GetInstanceType`. -/
structure Topology where
  instanceType : InstanceType
  deriving DecidableEq, Repr

def Topology.GetInstanceType (t : Topology) : InstanceType :=
  t.instanceType

structure QingStorageClass where
  diskType : VolumeType
  fsType : String
  replica : Int
  tags : List String
  deriving DecidableEq, Repr

def NewDefaultQingStorageClassFromType (ext : Externals) (diskType : VolumeType) :
    Option QingStorageClass :=
  if VolumeType.IsValid diskType != true then none
  else some
    { diskType := diskType
      fsType := ext.DefaultFileSystem
      replica := DefaultDiskReplicaType
      tags := [] }

def QingStorageClass.GetDiskType (sc : QingStorageClass) : VolumeType :=
  sc.diskType

def QingStorageClass.GetFsType (sc : QingStorageClass) : String :=
  sc.fsType

def QingStorageClass.GetReplica (sc : QingStorageClass) : Int :=
  sc.replica

def QingStorageClass.GetTags (sc : QingStorageClass) : List String :=
  sc.tags

def QingStorageClass.setFsType (ext : Externals) (sc : QingStorageClass) (fs : String) :
    QingStorageClass × Option Err :=
  if !ext.IsValidFileSystemType fs then (sc, some (.unsupportedFilesystem fs))
  else ({ sc with fsType := fs }, none)

def QingStorageClass.setReplica (sc : QingStorageClass) (repl : Int) :
    QingStorageClass × Option Err :=
  if !IsValidReplica repl then (sc, some (.unsupportedReplica repl))
  else ({ sc with replica := repl }, none)

def QingStorageClass.setTags (sc : QingStorageClass) (tagsStr : List String) :
    QingStorageClass :=
  { sc with tags := tagsStr }

/-- The local variables of `NewQingStorageClassFromMap` that the loop over the
options assigns. -/
structure Locals where
  volType : Int
  fsType : String
  replica : Int
  tags : List String
  deriving DecidableEq, Repr

/-- The body of the loop over the options, for the entry `k`, `v`: the `switch`
takes the first case whose value equals the lower-cased key. -/
def NewQingStorageClassFromMap.body (ext : Externals) (st : Locals) (k v : String) :
    Except Err Locals :=
  if ToLower k = ToLower StorageClassTypeName then
    match Atoi v with
    | .error err => .error err
    | .ok iv => .ok { st with volType := iv }
  else if ToLower k = ToLower StorageClassFsTypeName then
    if len v ≠ 0 ∧ !ext.IsValidFileSystemType v then .error (.unsupportedFilesystem v)
    else .ok { st with fsType := v }
  else if ToLower k = ToLower StorageClassReplicaName then
    match Atoi v with
    | .error err => .error err
    | .ok iv => .ok { st with replica := iv }
  else if ToLower k = ToLower StorageClassTagsName then
    if len v > 0 then .ok { st with tags := Split (ReplaceAll v (Char.ofNat 32)) (Char.ofNat 44) }
    else .ok st
  else .ok st

/-- The loop over the options, in the order of the list; it stops at the first
entry that returns an error. -/
def NewQingStorageClassFromMap.loop (ext : Externals) :
    Locals → List (String × String) → Except Err Locals
  | st, [] => .ok st
  | st, (k, v) :: rest =>
    match NewQingStorageClassFromMap.body ext st k v with
    | .error err => .error err
    | .ok st1 => NewQingStorageClassFromMap.loop ext st1 rest

def NewQingStorageClassFromMap (ext : Externals) (opt : List (String × String))
    (topology : Option Topology) : Except Err QingStorageClass :=
  match NewQingStorageClassFromMap.loop ext
      { volType := -1, fsType := "", replica := -1, tags := [] } opt with
  | .error err => .error err
  | .ok st =>
    let t : VolumeType :=
      if st.volType = -1 then
        match topology with
        | none => DefaultVolumeType
        | some topo =>
          match InstanceTypeAttachPreferred.lookup topo.GetInstanceType with
          | some preferredVolumeType => preferredVolumeType
          | none => DefaultVolumeType
      else st.volType
    if !VolumeType.IsValid t then .error (.unsupportedVolumeType st.volType)
    else
      match NewDefaultQingStorageClassFromType ext t with
      | none => .error .nilPointer
      | some sc =>
        let sc := (sc.setFsType ext st.fsType).1
        let sc := (sc.setReplica st.replica).1
        let sc := sc.setTags st.tags
        .ok sc

/-- The `csi.CapacityRange` message, read through its getters. -/
structure CapacityRange where
  RequiredBytes : Int
  LimitBytes : Int
  deriving DecidableEq, Repr

def CapacityRange.GetRequiredBytes (c : CapacityRange) : Int :=
  c.RequiredBytes

def CapacityRange.GetLimitBytes (c : CapacityRange) : Int :=
  c.LimitBytes

def QingStorageClass.GetRequiredVolumeSizeByte (ext : Externals) (_sc : QingStorageClass)
    (capRange : Option CapacityRange) : Int × Option Err :=
  match capRange with
  | none => (0 * ext.Gib, none)
  | some capRange =>
    let res : Int := if capRange.GetRequiredBytes > 0 then capRange.GetRequiredBytes else 0
    if capRange.GetLimitBytes > 0 ∧ res > capRange.GetLimitBytes then
      (-1, some (.requiredGreaterThanLimit res capRange.GetLimitBytes))
    else (res, none)

/-- The entries of a Go map have pairwise distinct keys. -/
def IsGoMap (opt : List (String × String)) : Prop :=
  (opt.map Prod.fst).Nodup

instance (opt : List (String × String)) : Decidable (IsGoMap opt) :=
  inferInstanceAs (Decidable (opt.map Prod.fst).Nodup)

/-- A concrete instance of the externals: ext3, ext4 and xfs are the supported
filesystems, ext4 the default one. -/
def stdExt : Externals :=
  { DefaultFileSystem := "ext4"
    Gib := 1024 * 1024 * 1024
    IsValidFileSystemType := fun fs => fs = "ext3" ∨ fs = "ext4" ∨ fs = "xfs" }

deriving instance DecidableEq for Except

/-- The key `k` is the option `name`, up to letter case: the test of the
`switch` of `NewQingStorageClassFromMap`. -/
def keyIs (name k : String) : Prop :=
  ToLower k = ToLower name

instance (name k : String) : Decidable (keyIs name k) :=
  inferInstanceAs (Decidable (ToLower k = ToLower name))

/-- The entry `k`, `v` passes the checks of the loop body. -/
def EntryValid (ext : Externals) (k v : String) : Prop :=
  (keyIs StorageClassTypeName k → ∃ iv, Atoi v = .ok iv) ∧
  (keyIs StorageClassFsTypeName k → v = "" ∨ ext.IsValidFileSystemType v = true) ∧
  (keyIs StorageClassReplicaName k → ∃ iv, Atoi v = .ok iv)

/-- The volume type that `NewQingStorageClassFromMap` resolves from the value
of `volType` after the loop and from the topology. -/
def resolvedType (volType : Int) (topology : Option Topology) : VolumeType :=
  if volType = -1 then
    match topology with
    | none => DefaultVolumeType
    | some topo =>
      match InstanceTypeAttachPreferred.lookup topo.GetInstanceType with
      | some preferredVolumeType => preferredVolumeType
      | none => DefaultVolumeType
  else volType

/-- The locals before the loop. -/
def initLocals : Locals :=
  { volType := -1, fsType := "", replica := -1, tags := [] }

/-- What one run of the loop body assigns. -/
structure StepFacts (st st1 : Locals) (k v : String) : Prop where
  volType : (st1.volType = st.volType ∧ ¬ keyIs StorageClassTypeName k) ∨
    (keyIs StorageClassTypeName k ∧ Atoi v = .ok st1.volType)
  fsType : (st1.fsType = st.fsType ∧ ¬ keyIs StorageClassFsTypeName k) ∨
    (keyIs StorageClassFsTypeName k ∧ st1.fsType = v)
  replica : (st1.replica = st.replica ∧ ¬ keyIs StorageClassReplicaName k) ∨
    (keyIs StorageClassReplicaName k ∧ Atoi v = .ok st1.replica)
  tags : (st1.tags = st.tags ∧ (keyIs StorageClassTagsName k → v = "")) ∨
    (keyIs StorageClassTagsName k ∧ v ≠ "" ∧
      st1.tags = Split (ReplaceAll v (Char.ofNat 32)) (Char.ofNat 44))

/-- What the loop assigns: every local keeps its value unless an entry of the
list assigns it, and then it holds the value of one of the assigning entries. -/
structure LoopFacts (st st1 : Locals) (l : List (String × String)) : Prop where
  volType : (st1.volType = st.volType ∧ ∀ e ∈ l, ¬ keyIs StorageClassTypeName e.1) ∨
    (∃ e ∈ l, keyIs StorageClassTypeName e.1 ∧ Atoi e.2 = .ok st1.volType)
  fsType : (st1.fsType = st.fsType ∧ ∀ e ∈ l, ¬ keyIs StorageClassFsTypeName e.1) ∨
    (∃ e ∈ l, keyIs StorageClassFsTypeName e.1 ∧ st1.fsType = e.2)
  replica : (st1.replica = st.replica ∧ ∀ e ∈ l, ¬ keyIs StorageClassReplicaName e.1) ∨
    (∃ e ∈ l, keyIs StorageClassReplicaName e.1 ∧ Atoi e.2 = .ok st1.replica)
  tags : (st1.tags = st.tags ∧ ∀ e ∈ l, keyIs StorageClassTagsName e.1 → e.2 = "") ∨
    (∃ e ∈ l, keyIs StorageClassTagsName e.1 ∧ e.2 ≠ "" ∧
      st1.tags = Split (ReplaceAll e.2 (Char.ofNat 32)) (Char.ofNat 44))

/-- Each of the four recognized keys occurs at most once among the keys of the
mapping, up to letter case. -/
def RecognizedKeysOnce (opt : List (String × String)) : Prop :=
  ∀ name ∈ [StorageClassTypeName, StorageClassFsTypeName, StorageClassReplicaName,
      StorageClassTagsName],
    opt.countP (fun e => decide (keyIs name e.1)) ≤ 1

instance (opt : List (String × String)) : Decidable (RecognizedKeysOnce opt) :=
  inferInstanceAs (Decidable (∀ name ∈ [StorageClassTypeName, StorageClassFsTypeName,
    StorageClassReplicaName, StorageClassTagsName],
    opt.countP (fun e => decide (keyIs name e.1)) ≤ 1))

/-- The keys `k1` and `k2` pass the same tests of the `switch` of
`NewQingStorageClassFromMap`. The tests read a key only through its lower-cased
form, so two keys of the same lower-cased form pass the same tests, whatever
the lower case of the characters outside ASCII is (`SameKeyTests.of_lower`). -/
def SameKeyTests (k1 k2 : String) : Prop :=
  ∀ name ∈ [StorageClassTypeName, StorageClassFsTypeName, StorageClassReplicaName,
      StorageClassTagsName],
    keyIs name k1 ↔ keyIs name k2

instance (k1 k2 : String) : Decidable (SameKeyTests k1 k2) :=
  inferInstanceAs (Decidable (∀ name ∈ [StorageClassTypeName, StorageClassFsTypeName,
    StorageClassReplicaName, StorageClassTagsName], keyIs name k1 ↔ keyIs name k2))

/-- The mapping `opt2` is the mapping `opt1` in which keys are replaced by
strings that pass the same tests of the `switch`, as every string of the same
lower-cased form does; the values and the order of the entries are kept. -/
def SameUpToKeyCase (opt1 opt2 : List (String × String)) : Prop :=
  List.Forall₂ (fun a b => SameKeyTests a.1 b.1 ∧ a.2 = b.2) opt1 opt2

/-! ## Lemmas on the library functions -/

theorem len_eq_zero_iff (s : String) : len s = 0 ↔ s = "" := by
  cases s with
  | mk data =>
    cases data with
    | nil => simp [len, String.utf8ByteSize, String.utf8ByteSize.go]
    | cons c cs =>
      have hc := Char.utf8Size_pos c
      simp [len, String.utf8ByteSize, String.utf8ByteSize.go]
      constructor
      · omega
      · intro h; exact absurd (congrArg String.data h) (by simp)

theorem splitChars_subset (sep : Char) :
    ∀ (cs : List Char), ∀ w ∈ splitChars sep cs, ∀ c ∈ w, c ∈ cs := by
  intro cs
  induction cs with
  | nil => intro w hw; simp [splitChars] at hw; simp [hw]
  | cons c cs ih =>
    intro w hw x hx
    unfold splitChars at hw
    by_cases hc : c = sep
    · simp [hc] at hw
      rcases hw with hw | hw
      · simp [hw] at hx
      · exact List.mem_cons_of_mem _ (ih w hw x hx)
    · simp only [if_neg hc] at hw
      cases hs : splitChars sep cs with
      | nil => simp [hs] at hw; subst hw; simp at hx; simp [hx]
      | cons w0 ws =>
        simp [hs] at hw
        rcases hw with hw | hw
        · subst hw
          simp at hx
          rcases hx with hx | hx
          · simp [hx]
          · exact List.mem_cons_of_mem _ (ih w0 (by simp [hs]) x hx)
        · exact List.mem_cons_of_mem _ (ih w (by simp [hs, hw]) x hx)

/-- No string of `Split (ReplaceAll v old) sep` contains `old`. -/
theorem Split_ReplaceAll_no_old (v : String) (old sep : Char) :
    ∀ tag ∈ Split (ReplaceAll v old) sep, old ∉ tag.data := by
  intro tag htag
  simp only [Split, List.mem_map] at htag
  obtain ⟨w, hw, rfl⟩ := htag
  intro hmem
  have := splitChars_subset sep _ w hw old hmem
  simp [ReplaceAll] at this

/-! ## The loop over the options -/

theorem type_ne_fsType : ToLower StorageClassTypeName ≠ ToLower StorageClassFsTypeName := by
  decide

theorem type_ne_replica : ToLower StorageClassTypeName ≠ ToLower StorageClassReplicaName := by
  decide

theorem type_ne_tags : ToLower StorageClassTypeName ≠ ToLower StorageClassTagsName := by
  decide

theorem fsType_ne_replica :
    ToLower StorageClassFsTypeName ≠ ToLower StorageClassReplicaName := by
  decide

theorem fsType_ne_tags : ToLower StorageClassFsTypeName ≠ ToLower StorageClassTagsName := by
  decide

theorem replica_ne_tags : ToLower StorageClassReplicaName ≠ ToLower StorageClassTagsName := by
  decide

theorem body_type (ext : Externals) (st : Locals) {k : String} (v : String)
    (h : keyIs StorageClassTypeName k) :
    NewQingStorageClassFromMap.body ext st k v =
      match Atoi v with
      | .error err => .error err
      | .ok iv => .ok { st with volType := iv } := by
  unfold NewQingStorageClassFromMap.body
  rw [if_pos (show ToLower k = ToLower _ from h)]

theorem body_fsType (ext : Externals) (st : Locals) {k : String} (v : String)
    (h : keyIs StorageClassFsTypeName k) :
    NewQingStorageClassFromMap.body ext st k v =
      if len v ≠ 0 ∧ !ext.IsValidFileSystemType v then .error (.unsupportedFilesystem v)
      else .ok { st with fsType := v } := by
  have h1 : ¬ ToLower k = ToLower StorageClassTypeName := fun h1 =>
    type_ne_fsType (h1.symm.trans h)
  unfold NewQingStorageClassFromMap.body
  rw [if_neg h1, if_pos (show ToLower k = ToLower _ from h)]

theorem body_replica (ext : Externals) (st : Locals) {k : String} (v : String)
    (h : keyIs StorageClassReplicaName k) :
    NewQingStorageClassFromMap.body ext st k v =
      match Atoi v with
      | .error err => .error err
      | .ok iv => .ok { st with replica := iv } := by
  have h1 : ¬ ToLower k = ToLower StorageClassTypeName := fun h1 =>
    type_ne_replica (h1.symm.trans h)
  have h2 : ¬ ToLower k = ToLower StorageClassFsTypeName := fun h2 =>
    fsType_ne_replica (h2.symm.trans h)
  unfold NewQingStorageClassFromMap.body
  rw [if_neg h1, if_neg h2, if_pos (show ToLower k = ToLower _ from h)]

theorem body_tags (ext : Externals) (st : Locals) {k : String} (v : String)
    (h : keyIs StorageClassTagsName k) :
    NewQingStorageClassFromMap.body ext st k v =
      if len v > 0 then
        .ok { st with tags := Split (ReplaceAll v (Char.ofNat 32)) (Char.ofNat 44) }
      else .ok st := by
  have h1 : ¬ ToLower k = ToLower StorageClassTypeName := fun h1 =>
    type_ne_tags (h1.symm.trans h)
  have h2 : ¬ ToLower k = ToLower StorageClassFsTypeName := fun h2 =>
    fsType_ne_tags (h2.symm.trans h)
  have h3 : ¬ ToLower k = ToLower StorageClassReplicaName := fun h3 =>
    replica_ne_tags (h3.symm.trans h)
  unfold NewQingStorageClassFromMap.body
  rw [if_neg h1, if_neg h2, if_neg h3, if_pos (show ToLower k = ToLower _ from h)]

theorem body_other (ext : Externals) (st : Locals) {k : String} (v : String)
    (h1 : ¬ keyIs StorageClassTypeName k) (h2 : ¬ keyIs StorageClassFsTypeName k)
    (h3 : ¬ keyIs StorageClassReplicaName k) (h4 : ¬ keyIs StorageClassTagsName k) :
    NewQingStorageClassFromMap.body ext st k v = .ok st := by
  unfold NewQingStorageClassFromMap.body
  rw [if_neg (show ¬ ToLower k = ToLower _ from h1), if_neg (show ¬ ToLower k = ToLower _ from h2),
    if_neg (show ¬ ToLower k = ToLower _ from h3), if_neg (show ¬ ToLower k = ToLower _ from h4)]

theorem body_facts (ext : Externals) (st st1 : Locals) (k v : String)
    (h : NewQingStorageClassFromMap.body ext st k v = .ok st1) : StepFacts st st1 k v := by
  by_cases h1 : keyIs StorageClassTypeName k
  · have n2 : ¬ keyIs StorageClassFsTypeName k := fun h2 => type_ne_fsType (h1.symm.trans h2)
    have n3 : ¬ keyIs StorageClassReplicaName k := fun h3 => type_ne_replica (h1.symm.trans h3)
    have n4 : ¬ keyIs StorageClassTagsName k := fun h4 => type_ne_tags (h1.symm.trans h4)
    rw [body_type ext st v h1] at h
    cases ha : Atoi v with
    | error err => simp [ha] at h
    | ok iv =>
      simp [ha] at h
      subst h
      exact ⟨Or.inr ⟨h1, ha⟩, Or.inl ⟨rfl, n2⟩, Or.inl ⟨rfl, n3⟩,
        Or.inl ⟨rfl, fun h4 => absurd h4 n4⟩⟩
  · by_cases h2 : keyIs StorageClassFsTypeName k
    · have n3 : ¬ keyIs StorageClassReplicaName k := fun h3 =>
        fsType_ne_replica (h2.symm.trans h3)
      have n4 : ¬ keyIs StorageClassTagsName k := fun h4 => fsType_ne_tags (h2.symm.trans h4)
      rw [body_fsType ext st v h2] at h
      split at h
      · simp at h
      · simp at h
        subst h
        exact ⟨Or.inl ⟨rfl, h1⟩, Or.inr ⟨h2, rfl⟩, Or.inl ⟨rfl, n3⟩,
          Or.inl ⟨rfl, fun h4 => absurd h4 n4⟩⟩
    · by_cases h3 : keyIs StorageClassReplicaName k
      · have n4 : ¬ keyIs StorageClassTagsName k := fun h4 =>
          replica_ne_tags (h3.symm.trans h4)
        rw [body_replica ext st v h3] at h
        cases ha : Atoi v with
        | error err => simp [ha] at h
        | ok iv =>
          simp [ha] at h
          subst h
          exact ⟨Or.inl ⟨rfl, h1⟩, Or.inl ⟨rfl, h2⟩, Or.inr ⟨h3, ha⟩,
            Or.inl ⟨rfl, fun h4 => absurd h4 n4⟩⟩
      · by_cases h4 : keyIs StorageClassTagsName k
        · rw [body_tags ext st v h4] at h
          by_cases hv : len v > 0
          · rw [if_pos hv] at h
            simp at h
            subst h
            have hne : v ≠ "" := fun he => by
              rw [(len_eq_zero_iff v).2 he] at hv; exact absurd hv (by decide)
            exact ⟨Or.inl ⟨rfl, h1⟩, Or.inl ⟨rfl, h2⟩, Or.inl ⟨rfl, h3⟩,
              Or.inr ⟨h4, hne, rfl⟩⟩
          · rw [if_neg hv] at h
            simp at h
            subst h
            have he : v = "" := (len_eq_zero_iff v).1 (by omega)
            exact ⟨Or.inl ⟨rfl, h1⟩, Or.inl ⟨rfl, h2⟩, Or.inl ⟨rfl, h3⟩,
              Or.inl ⟨rfl, fun _ => he⟩⟩
        · rw [body_other ext st v h1 h2 h3 h4] at h
          simp at h
          subst h
          exact ⟨Or.inl ⟨rfl, h1⟩, Or.inl ⟨rfl, h2⟩, Or.inl ⟨rfl, h3⟩,
            Or.inl ⟨rfl, fun h => absurd h h4⟩⟩

/-- The loop body returns no error exactly on the entries that pass its checks,
whatever the locals are. -/
theorem body_ok_iff (ext : Externals) (st : Locals) (k v : String) :
    (∃ st1, NewQingStorageClassFromMap.body ext st k v = .ok st1) ↔ EntryValid ext k v := by
  by_cases h1 : keyIs StorageClassTypeName k
  · have n2 : ¬ keyIs StorageClassFsTypeName k := fun h2 => type_ne_fsType (h1.symm.trans h2)
    have n3 : ¬ keyIs StorageClassReplicaName k := fun h3 => type_ne_replica (h1.symm.trans h3)
    rw [body_type ext st v h1]
    cases ha : Atoi v with
    | error err => simp [EntryValid, h1, ha]
    | ok iv => simp [EntryValid, h1, n2, n3, ha]
  · by_cases h2 : keyIs StorageClassFsTypeName k
    · have n3 : ¬ keyIs StorageClassReplicaName k := fun h3 =>
        fsType_ne_replica (h2.symm.trans h3)
      rw [body_fsType ext st v h2]
      by_cases hv : v = ""
      · subst hv
        have hl : len "" = 0 := (len_eq_zero_iff "").2 rfl
        simp [EntryValid, h1, h2, n3, hl]
      · have hl : len v ≠ 0 := fun h => hv ((len_eq_zero_iff v).1 h)
        cases hf : ext.IsValidFileSystemType v <;> simp [EntryValid, h1, h2, n3, hl, hv, hf]
    · by_cases h3 : keyIs StorageClassReplicaName k
      · rw [body_replica ext st v h3]
        cases ha : Atoi v with
        | error err => simp [EntryValid, h1, h2, h3, ha]
        | ok iv => simp [EntryValid, h1, h2, h3, ha]
      · by_cases h4 : keyIs StorageClassTagsName k
        · rw [body_tags ext st v h4]
          by_cases hv : len v > 0 <;> simp [EntryValid, h1, h2, h3, hv]
        · rw [body_other ext st v h1 h2 h3 h4]
          simp [EntryValid, h1, h2, h3]

/-- The error of the loop body is the one of the check that the entry does not
pass. -/
theorem body_error (ext : Externals) (st : Locals) (k v : String) (err : Err)
    (h : NewQingStorageClassFromMap.body ext st k v = .error err) :
    (err = .numError v ∧ (keyIs StorageClassTypeName k ∨ keyIs StorageClassReplicaName k) ∧
        ∀ iv, Atoi v ≠ .ok iv) ∨
    (err = .unsupportedFilesystem v ∧ keyIs StorageClassFsTypeName k ∧ v ≠ "" ∧
        ext.IsValidFileSystemType v = false) := by
  have hatoi : ∀ e, Atoi v = .error e → e = .numError v := by
    intro e he
    unfold Atoi at he
    simp only at he
    repeat' (split at he)
    all_goals first
      | (injection he with he; exact he.symm)
      | cases he
  by_cases h1 : keyIs StorageClassTypeName k
  · rw [body_type ext st v h1] at h
    cases ha : Atoi v with
    | error e =>
      simp [ha] at h
      subst h
      exact Or.inl ⟨hatoi _ ha, Or.inl h1, fun iv hiv => by simp [ha] at hiv⟩
    | ok iv => simp [ha] at h
  · by_cases h2 : keyIs StorageClassFsTypeName k
    · rw [body_fsType ext st v h2] at h
      split at h
      · rename_i hc
        simp at h
        subst h
        refine Or.inr ⟨rfl, h2, ?_, by simpa using hc.2⟩
        intro hv
        exact hc.1 ((len_eq_zero_iff v).2 hv)
      · simp at h
    · by_cases h3 : keyIs StorageClassReplicaName k
      · rw [body_replica ext st v h3] at h
        cases ha : Atoi v with
        | error e =>
          simp [ha] at h
          subst h
          exact Or.inl ⟨hatoi _ ha, Or.inr h3, fun iv hiv => by simp [ha] at hiv⟩
        | ok iv => simp [ha] at h
      · by_cases h4 : keyIs StorageClassTagsName k
        · rw [body_tags ext st v h4] at h
          split at h <;> simp at h
        · rw [body_other ext st v h1 h2 h3 h4] at h
          simp at h

theorem loop_cons (ext : Externals) (st : Locals) (k v : String)
    (rest : List (String × String)) :
    NewQingStorageClassFromMap.loop ext st ((k, v) :: rest) =
      match NewQingStorageClassFromMap.body ext st k v with
      | .error err => .error err
      | .ok st1 => NewQingStorageClassFromMap.loop ext st1 rest := by
  rw [NewQingStorageClassFromMap.loop]

/-- The loop returns no error exactly when every entry passes the checks of the
body: this does not depend on the order of the entries. -/
theorem loop_ok_iff (ext : Externals) :
    ∀ (l : List (String × String)) (st : Locals),
      (∃ st1, NewQingStorageClassFromMap.loop ext st l = .ok st1) ↔
        ∀ e ∈ l, EntryValid ext e.1 e.2 := by
  intro l
  induction l with
  | nil => intro st; simp [NewQingStorageClassFromMap.loop]
  | cons e rest ih =>
    intro st
    obtain ⟨k, v⟩ := e
    rw [loop_cons]
    cases hb : NewQingStorageClassFromMap.body ext st k v with
    | error err =>
      have hnot : ¬ EntryValid ext k v := fun hv => by
        obtain ⟨st1, h1⟩ := (body_ok_iff ext st k v).2 hv
        rw [hb] at h1
        cases h1
      simp [hnot]
    | ok st1 =>
      have hv : EntryValid ext k v := (body_ok_iff ext st k v).1 ⟨st1, hb⟩
      simp [hv, ih st1]

theorem loop_facts (ext : Externals) :
    ∀ (l : List (String × String)) (st st2 : Locals),
      NewQingStorageClassFromMap.loop ext st l = .ok st2 → LoopFacts st st2 l := by
  intro l
  induction l with
  | nil =>
    intro st st2 h
    simp [NewQingStorageClassFromMap.loop] at h
    subst h
    exact ⟨Or.inl ⟨rfl, by simp⟩, Or.inl ⟨rfl, by simp⟩, Or.inl ⟨rfl, by simp⟩,
      Or.inl ⟨rfl, by simp⟩⟩
  | cons e rest ih =>
    intro st st2 h
    obtain ⟨k, v⟩ := e
    rw [loop_cons] at h
    cases hb : NewQingStorageClassFromMap.body ext st k v with
    | error err => simp [hb] at h
    | ok st1 =>
      simp only [hb] at h
      have hs := body_facts ext st st1 k v hb
      have hl := ih st1 st2 h
      refine ⟨?_, ?_, ?_, ?_⟩
      · rcases hl.volType with ⟨heq, hno⟩ | ⟨e, he, hk, hv⟩
        · rcases hs.volType with ⟨heq1, hno1⟩ | ⟨hk1, hv1⟩
          · left
            refine ⟨heq.trans heq1, ?_⟩
            intro e he
            rcases List.mem_cons.1 he with rfl | he
            · exact hno1
            · exact hno e he
          · right
            exact ⟨(k, v), List.mem_cons_self _ _, hk1, by rw [heq]; exact hv1⟩
        · right
          exact ⟨e, List.mem_cons_of_mem _ he, hk, hv⟩
      · rcases hl.fsType with ⟨heq, hno⟩ | ⟨e, he, hk, hv⟩
        · rcases hs.fsType with ⟨heq1, hno1⟩ | ⟨hk1, hv1⟩
          · left
            refine ⟨heq.trans heq1, ?_⟩
            intro e he
            rcases List.mem_cons.1 he with rfl | he
            · exact hno1
            · exact hno e he
          · right
            exact ⟨(k, v), List.mem_cons_self _ _, hk1, by rw [heq]; exact hv1⟩
        · right
          exact ⟨e, List.mem_cons_of_mem _ he, hk, hv⟩
      · rcases hl.replica with ⟨heq, hno⟩ | ⟨e, he, hk, hv⟩
        · rcases hs.replica with ⟨heq1, hno1⟩ | ⟨hk1, hv1⟩
          · left
            refine ⟨heq.trans heq1, ?_⟩
            intro e he
            rcases List.mem_cons.1 he with rfl | he
            · exact hno1
            · exact hno e he
          · right
            exact ⟨(k, v), List.mem_cons_self _ _, hk1, by rw [heq]; exact hv1⟩
        · right
          exact ⟨e, List.mem_cons_of_mem _ he, hk, hv⟩
      · rcases hl.tags with ⟨heq, hno⟩ | ⟨e, he, hk, hne, hv⟩
        · rcases hs.tags with ⟨heq1, hno1⟩ | ⟨hk1, hne1, hv1⟩
          · left
            refine ⟨heq.trans heq1, ?_⟩
            intro e he
            rcases List.mem_cons.1 he with rfl | he
            · exact hno1
            · exact hno e he
          · right
            exact ⟨(k, v), List.mem_cons_self _ _, hk1, hne1, by rw [heq]; exact hv1⟩
        · right
          exact ⟨e, List.mem_cons_of_mem _ he, hk, hne, hv⟩

/-- The error of the loop is the error of one of the entries. -/
theorem loop_error (ext : Externals) :
    ∀ (l : List (String × String)) (st : Locals) (err : Err),
      NewQingStorageClassFromMap.loop ext st l = .error err →
      ∃ e ∈ l,
        (err = .numError e.2 ∧
          (keyIs StorageClassTypeName e.1 ∨ keyIs StorageClassReplicaName e.1) ∧
          ∀ iv, Atoi e.2 ≠ .ok iv) ∨
        (err = .unsupportedFilesystem e.2 ∧ keyIs StorageClassFsTypeName e.1 ∧ e.2 ≠ "" ∧
          ext.IsValidFileSystemType e.2 = false) := by
  intro l
  induction l with
  | nil => intro st err h; simp [NewQingStorageClassFromMap.loop] at h
  | cons e rest ih =>
    intro st err h
    obtain ⟨k, v⟩ := e
    rw [loop_cons] at h
    cases hb : NewQingStorageClassFromMap.body ext st k v with
    | error err1 =>
      simp only [hb] at h
      have h1 : err1 = err := by injection h
      subst h1
      exact ⟨(k, v), List.mem_cons_self _ _, body_error ext st k v err1 hb⟩
    | ok st1 =>
      simp only [hb] at h
      obtain ⟨e, he, hh⟩ := ih st1 err h
      exact ⟨e, List.mem_cons_of_mem _ he, hh⟩

/-- The result of `NewQingStorageClassFromMap` when the loop returns an error. -/
theorem NewQingStorageClassFromMap_of_loop_error (ext : Externals)
    (opt : List (String × String)) (topology : Option Topology) (err : Err)
    (h : NewQingStorageClassFromMap.loop ext initLocals opt = .error err) :
    NewQingStorageClassFromMap ext opt topology = .error err := by
  unfold initLocals at h
  unfold NewQingStorageClassFromMap
  rw [h]

/-- The result of `NewQingStorageClassFromMap` when the loop ends with the
locals `st`. -/
theorem NewQingStorageClassFromMap_of_loop_ok (ext : Externals)
    (opt : List (String × String)) (topology : Option Topology) (st : Locals)
    (h : NewQingStorageClassFromMap.loop ext initLocals opt = .ok st) :
    NewQingStorageClassFromMap ext opt topology =
      if VolumeType.IsValid (resolvedType st.volType topology) = false then
        .error (.unsupportedVolumeType st.volType)
      else
        .ok
          { diskType := resolvedType st.volType topology
            fsType :=
              if ext.IsValidFileSystemType st.fsType = true then st.fsType
              else ext.DefaultFileSystem
            replica := if IsValidReplica st.replica = true then st.replica
              else DefaultDiskReplicaType
            tags := st.tags } := by
  unfold initLocals at h
  unfold NewQingStorageClassFromMap
  rw [h]
  have ht : (if st.volType = -1 then
        match topology with
        | none => DefaultVolumeType
        | some topo =>
          match InstanceTypeAttachPreferred.lookup topo.GetInstanceType with
          | some preferredVolumeType => preferredVolumeType
          | none => DefaultVolumeType
      else st.volType) = resolvedType st.volType topology := rfl
  simp only [ht]
  cases hv : VolumeType.IsValid (resolvedType st.volType topology) with
  | false => simp
  | true =>
    simp [NewDefaultQingStorageClassFromType, hv, QingStorageClass.setFsType,
      QingStorageClass.setReplica, QingStorageClass.setTags]
    cases hf : ext.IsValidFileSystemType st.fsType <;>
      cases hr : IsValidReplica st.replica <;> simp

/-! ## Lemmas on the tables -/

theorem lookup_mem {β : Type} :
    ∀ (l : List (Int × β)) (a : Int) (b : β), l.lookup a = some b → (a, b) ∈ l := by
  intro l
  induction l with
  | nil => intro a b h; simp at h
  | cons e rest ih =>
    intro a b h
    obtain ⟨k, x⟩ := e
    rw [List.lookup_cons] at h
    cases hk : (a == k) with
    | true =>
      simp [hk] at h
      have : a = k := by simpa using hk
      simp [this, h]
    | false =>
      simp [hk] at h
      exact List.mem_cons_of_mem _ (ih a b h)

/-- Every preferred volume type of the table is a valid volume type. -/
theorem preferred_valid (i : InstanceType) (p : VolumeType)
    (h : InstanceTypeAttachPreferred.lookup i = some p) : VolumeType.IsValid p = true := by
  have hm := lookup_mem _ _ _ h
  simp only [InstanceTypeAttachPreferred, List.mem_cons, Prod.mk.injEq, List.mem_nil_iff,
    or_false] at hm
  rcases hm with h | h | h | h | h | h | h | h | h <;> (rw [h.2]; decide)

/-- Without a value for `type` the resolved volume type is valid. -/
theorem resolvedType_default_valid (topology : Option Topology) :
    VolumeType.IsValid (resolvedType (-1) topology) = true := by
  unfold resolvedType
  rw [if_pos rfl]
  cases topology with
  | none => decide
  | some topo =>
    simp only []
    cases h : InstanceTypeAttachPreferred.lookup topo.GetInstanceType with
    | none => simp only []; decide
    | some p => simp only []; exact preferred_valid _ _ h

theorem resolvedType_valid (volType : Int) (topology : Option Topology)
    (h : VolumeType.IsValid volType = true ∨ volType = -1) :
    VolumeType.IsValid (resolvedType volType topology) = true := by
  by_cases hv : volType = -1
  · rw [hv]; exact resolvedType_default_valid topology
  · rcases h with h | h
    · unfold resolvedType
      rw [if_neg hv]; exact h
    · exact absurd h hv

/-! ## Independence of the iteration order -/

theorem countP_le_one_unique {α : Type} (p : α → Bool) :
    ∀ (l : List α), l.countP p ≤ 1 → ∀ a ∈ l, ∀ b ∈ l, p a = true → p b = true → a = b := by
  intro l
  induction l with
  | nil => intro _ a ha; simp at ha
  | cons x xs ih =>
    intro hc a ha b hb hpa hpb
    rw [List.countP_cons] at hc
    rcases List.mem_cons.1 ha with hax | hax
    · rcases List.mem_cons.1 hb with hbx | hbx
      · rw [hax, hbx]
      · have : 0 < xs.countP p := List.countP_pos_iff.2 ⟨b, hbx, hpb⟩
        rw [← hax, if_pos hpa] at hc
        omega
    · rcases List.mem_cons.1 hb with hbx | hbx
      · have : 0 < xs.countP p := List.countP_pos_iff.2 ⟨a, hax, hpa⟩
        rw [← hbx, if_pos hpb] at hc
        omega
      · exact ih (by omega) a hax b hbx hpa hpb

theorem RecognizedKeysOnce.unique {opt : List (String × String)} (h : RecognizedKeysOnce opt)
    {name : String}
    (hn : name ∈ [StorageClassTypeName, StorageClassFsTypeName, StorageClassReplicaName,
      StorageClassTagsName])
    {a b : String × String} (ha : a ∈ opt) (hb : b ∈ opt) (hka : keyIs name a.1)
    (hkb : keyIs name b.1) : a = b :=
  countP_le_one_unique _ opt (h name hn) a ha b hb (by simpa using hka) (by simpa using hkb)

theorem RecognizedKeysOnce.perm {opt1 opt2 : List (String × String)}
    (h : RecognizedKeysOnce opt1) (hp : opt1.Perm opt2) : RecognizedKeysOnce opt2 := by
  intro name hn
  rw [← hp.countP_eq]
  exact h name hn

/-- The locals after the loop do not depend on the order of the entries, when
each recognized key occurs at most once up to letter case. -/
theorem loop_perm (ext : Externals) (opt1 opt2 : List (String × String))
    (hp : opt1.Perm opt2) (h : RecognizedKeysOnce opt1) (st st1 st2 : Locals)
    (h1 : NewQingStorageClassFromMap.loop ext st opt1 = .ok st1)
    (h2 : NewQingStorageClassFromMap.loop ext st opt2 = .ok st2) : st1 = st2 := by
  have f1 := loop_facts ext opt1 st st1 h1
  have f2 := loop_facts ext opt2 st st2 h2
  have hvol : st1.volType = st2.volType := by
    rcases f1.volType with ⟨e1, n1⟩ | ⟨a, ha, hka, hva⟩
    · rcases f2.volType with ⟨e2, _⟩ | ⟨b, hb, hkb, _⟩
      · rw [e1, e2]
      · exact absurd hkb (n1 b (hp.mem_iff.2 hb))
    · rcases f2.volType with ⟨_, n2⟩ | ⟨b, hb, hkb, hvb⟩
      · exact absurd hka (n2 a (hp.mem_iff.1 ha))
      · have hab : a = b := h.unique (by simp) ha (hp.mem_iff.2 hb) hka hkb
        rw [hab, hvb] at hva
        injection hva with hva
        exact hva.symm
  have hfs : st1.fsType = st2.fsType := by
    rcases f1.fsType with ⟨e1, n1⟩ | ⟨a, ha, hka, hva⟩
    · rcases f2.fsType with ⟨e2, _⟩ | ⟨b, hb, hkb, _⟩
      · rw [e1, e2]
      · exact absurd hkb (n1 b (hp.mem_iff.2 hb))
    · rcases f2.fsType with ⟨_, n2⟩ | ⟨b, hb, hkb, hvb⟩
      · exact absurd hka (n2 a (hp.mem_iff.1 ha))
      · have hab : a = b := h.unique (by simp) ha (hp.mem_iff.2 hb) hka hkb
        rw [hva, hvb, hab]
  have hrep : st1.replica = st2.replica := by
    rcases f1.replica with ⟨e1, n1⟩ | ⟨a, ha, hka, hva⟩
    · rcases f2.replica with ⟨e2, _⟩ | ⟨b, hb, hkb, _⟩
      · rw [e1, e2]
      · exact absurd hkb (n1 b (hp.mem_iff.2 hb))
    · rcases f2.replica with ⟨_, n2⟩ | ⟨b, hb, hkb, hvb⟩
      · exact absurd hka (n2 a (hp.mem_iff.1 ha))
      · have hab : a = b := h.unique (by simp) ha (hp.mem_iff.2 hb) hka hkb
        rw [hab, hvb] at hva
        injection hva with hva
        exact hva.symm
  have htags : st1.tags = st2.tags := by
    rcases f1.tags with ⟨e1, n1⟩ | ⟨a, ha, hka, hna, hva⟩
    · rcases f2.tags with ⟨e2, _⟩ | ⟨b, hb, hkb, hnb, _⟩
      · rw [e1, e2]
      · exact absurd (n1 b (hp.mem_iff.2 hb) hkb) hnb
    · rcases f2.tags with ⟨_, n2⟩ | ⟨b, hb, hkb, _, hvb⟩
      · exact absurd (n2 a (hp.mem_iff.1 ha) hka) hna
      · have hab : a = b := h.unique (by simp) ha (hp.mem_iff.2 hb) hka hkb
        rw [hva, hvb, hab]
  cases st1
  cases st2
  simp only [Locals.mk.injEq]
  exact ⟨hvol, hfs, hrep, htags⟩

/-- Whether the loop returns an error does not depend on the order of the
entries. -/
theorem loop_perm_ok (ext : Externals) (opt1 opt2 : List (String × String))
    (hp : opt1.Perm opt2) (st : Locals)
    (h1 : ∃ st1, NewQingStorageClassFromMap.loop ext st opt1 = .ok st1) :
    ∃ st2, NewQingStorageClassFromMap.loop ext st opt2 = .ok st2 := by
  rw [loop_ok_iff] at h1 ⊢
  intro e he
  exact h1 e (hp.mem_iff.2 he)

/-- For a mapping in which each recognized key occurs at most once up to letter
case, the storage class that `NewQingStorageClassFromMap` returns, and whether
it returns one, do not depend on the order of the entries. -/
theorem order_independent (ext : Externals) (opt1 opt2 : List (String × String))
    (topology : Option Topology) (hp : opt1.Perm opt2) (h : RecognizedKeysOnce opt1) :
    (NewQingStorageClassFromMap ext opt1 topology).toOption =
      (NewQingStorageClassFromMap ext opt2 topology).toOption := by
  cases h1 : NewQingStorageClassFromMap.loop ext initLocals opt1 with
  | error err1 =>
    cases h2 : NewQingStorageClassFromMap.loop ext initLocals opt2 with
    | error err2 =>
      rw [NewQingStorageClassFromMap_of_loop_error ext opt1 topology err1 h1,
        NewQingStorageClassFromMap_of_loop_error ext opt2 topology err2 h2]
      rfl
    | ok st2 =>
      obtain ⟨st1, h3⟩ := loop_perm_ok ext opt2 opt1 hp.symm initLocals ⟨st2, h2⟩
      rw [h1] at h3
      cases h3
  | ok st1 =>
    obtain ⟨st2, h2⟩ := loop_perm_ok ext opt1 opt2 hp initLocals ⟨st1, h1⟩
    have heq : st1 = st2 := loop_perm ext opt1 opt2 hp h initLocals st1 st2 h1 h2
    subst heq
    rw [NewQingStorageClassFromMap_of_loop_ok ext opt1 topology st1 h1,
      NewQingStorageClassFromMap_of_loop_ok ext opt2 topology st1 h2]

/-! ## A mapping with the four recognized keys -/

/-- The mapping with exactly the four recognized keys, in the order of their
declaration. -/
theorem RecognizedKeysOnce_four (tv f rv s : String) :
    RecognizedKeysOnce
      [(StorageClassTypeName, tv), (StorageClassFsTypeName, f), (StorageClassReplicaName, rv),
        (StorageClassTagsName, s)] := by
  intro name hn
  have hc : ∀ (l : List (String × String)),
      l.countP (fun e => decide (keyIs name e.1)) =
        (l.map Prod.fst).countP (fun k => decide (keyIs name k)) := by
    intro l
    rw [List.countP_map]
    rfl
  rw [hc]
  simp only [List.map]
  simp only [List.mem_cons, List.mem_singleton, List.mem_nil_iff, or_false] at hn
  rcases hn with rfl | rfl | rfl | rfl <;> decide

theorem toOption_eq_some {ε α : Type} (x : Except ε α) (a : α)
    (h : x.toOption = some a) : x = .ok a := by
  cases x with
  | error e => simp [Except.toOption] at h
  | ok b =>
    simp [Except.toOption] at h
    rw [h]

theorem IsValid_cases (t : VolumeType) (h : VolumeType.IsValid t = true) :
    t = 0 ∨ t = 2 ∨ t = 3 ∨ t = 5 ∨ t = 6 ∨ t = 100 ∨ t = 200 := by
  unfold VolumeType.IsValid at h
  cases hl : VolumeTypeName.lookup t with
  | none => simp [hl] at h
  | some name =>
    have hm := lookup_mem _ _ _ hl
    simp only [VolumeTypeName, List.mem_cons, Prod.mk.injEq, List.mem_nil_iff, or_false] at hm
    rcases hm with h | h | h | h | h | h | h
    · exact Or.inl h.1
    · exact Or.inr (Or.inl h.1)
    · exact Or.inr (Or.inr (Or.inl h.1))
    · exact Or.inr (Or.inr (Or.inr (Or.inl h.1)))
    · exact Or.inr (Or.inr (Or.inr (Or.inr (Or.inl h.1))))
    · exact Or.inr (Or.inr (Or.inr (Or.inr (Or.inr (Or.inl h.1)))))
    · exact Or.inr (Or.inr (Or.inr (Or.inr (Or.inr (Or.inr h.1)))))

/-- The decimal numeral of a valid volume type is read back by `Atoi`. -/
theorem Atoi_toString_valid (t : VolumeType) (h : VolumeType.IsValid t = true) :
    Atoi (toString t) = .ok t := by
  rcases IsValid_cases t h with rfl | rfl | rfl | rfl | rfl | rfl | rfl <;> decide

/-- The result on the mapping with the four recognized keys, visited in the
order of their declaration. -/
theorem four_keys_in_order (ext : Externals) (t r : Int) (tv f rv s : String)
    (topology : Option Topology)
    (ht : VolumeType.IsValid t = true) (htv : Atoi tv = .ok t)
    (hf : ext.IsValidFileSystemType f = true) (hr : r = 1 ∨ r = 2) (hrv : Atoi rv = .ok r) :
    NewQingStorageClassFromMap ext
        [(StorageClassTypeName, tv), (StorageClassFsTypeName, f), (StorageClassReplicaName, rv),
          (StorageClassTagsName, s)] topology =
      .ok
        { diskType := t
          fsType := f
          replica := r
          tags := if s = "" then [] else Split (ReplaceAll s (Char.ofNat 32)) (Char.ofNat 44) } := by
  have hl : NewQingStorageClassFromMap.loop ext initLocals
      [(StorageClassTypeName, tv), (StorageClassFsTypeName, f), (StorageClassReplicaName, rv),
        (StorageClassTagsName, s)] =
      .ok { volType := t, fsType := f, replica := r,
            tags := if s = "" then []
              else Split (ReplaceAll s (Char.ofNat 32)) (Char.ofNat 44) } := by
    rw [loop_cons, body_type ext _ _ rfl, htv]
    simp only []
    rw [loop_cons, body_fsType ext _ _ rfl]
    simp only [hf, Bool.not_true, Bool.false_eq_true, and_false, if_false]
    rw [loop_cons, body_replica ext _ _ rfl, hrv]
    simp only []
    rw [loop_cons, body_tags ext _ _ rfl]
    by_cases hs : s = ""
    · subst hs
      have h0 : ¬ 0 < len "" := by decide
      simp [h0, NewQingStorageClassFromMap.loop, initLocals]
    · have h0 : len s > 0 := Nat.pos_of_ne_zero (fun h => hs ((len_eq_zero_iff s).1 h))
      simp [h0, hs, NewQingStorageClassFromMap.loop, initLocals]
  rw [NewQingStorageClassFromMap_of_loop_ok ext _ topology _ hl]
  have hne : t ≠ -1 := by
    intro h
    rw [h] at ht
    exact absurd ht (by decide)
  have hres : resolvedType t topology = t := by
    unfold resolvedType
    rw [if_neg hne]
  have hrep : IsValidReplica r = true := by
    rcases hr with rfl | rfl <;> decide
  simp [hres, ht, hf, hrep]

/-! ## Entries with an empty `fsType` -/

/-- Entries that give the empty string to `fsType` can be left out of the loop. -/
theorem loop_filter_empty_fsType (ext : Externals) :
    ∀ (l : List (String × String)) (st : Locals), st.fsType = "" →
      (∀ e ∈ l, keyIs StorageClassFsTypeName e.1 → e.2 = "") →
      NewQingStorageClassFromMap.loop ext st l =
        NewQingStorageClassFromMap.loop ext st
          (l.filter (fun e => !decide (keyIs StorageClassFsTypeName e.1))) := by
  intro l
  induction l with
  | nil => intro st _ _; rfl
  | cons e rest ih =>
    intro st hst hall
    obtain ⟨k, v⟩ := e
    have hrest : ∀ e ∈ rest, keyIs StorageClassFsTypeName e.1 → e.2 = "" :=
      fun e he => hall e (List.mem_cons_of_mem _ he)
    by_cases hk : keyIs StorageClassFsTypeName k
    · have hv : v = "" := hall (k, v) (List.mem_cons_self _ _) hk
      subst hv
      have h0 : len "" = 0 := (len_eq_zero_iff "").2 rfl
      have hb : NewQingStorageClassFromMap.body ext st k "" = .ok st := by
        rw [body_fsType ext st _ hk]
        simp only [h0, ne_eq, not_true_eq_false, false_and, if_false]
        cases st
        simp only [Except.ok.injEq, Locals.mk.injEq, true_and, and_true] at hst ⊢
        exact hst.symm
      rw [loop_cons, hb, List.filter_cons_of_neg (by simpa using hk)]
      exact ih st hst hrest
    · rw [List.filter_cons_of_pos (by simpa using hk), loop_cons, loop_cons]
      cases hb : NewQingStorageClassFromMap.body ext st k v with
      | error err => rfl
      | ok st1 =>
        have hfs : st1.fsType = "" := by
          rcases (body_facts ext st st1 k v hb).fsType with ⟨heq, _⟩ | ⟨hk1, _⟩
          · rw [heq, hst]
          · exact absurd hk1 hk
        exact ih st1 hfs hrest

/-! ## The claims -/

/-- C1 (defect of the code): the value "3" of `replica` parses as the integer 3,
which `IsValidReplica` rejects, and yet on the mapping with the single entry
`replica` = "3" `NewQingStorageClassFromMap` returns a storage class and no
error, for every topology: the error of `setReplica` is dropped, and the replica
count keeps its default 2. -/
theorem C1_unsupported_replica_accepted :
    Atoi "3" = .ok 3 ∧ IsValidReplica 3 = false ∧
    ∀ (ext : Externals) (topology : Option Topology),
      ∃ sc, NewQingStorageClassFromMap ext [(StorageClassReplicaName, "3")] topology = .ok sc ∧
        sc.GetReplica = 2 := by
  refine ⟨by decide, by decide, ?_⟩
  intro ext topology
  have ha : Atoi "3" = .ok 3 := by decide
  have hl : NewQingStorageClassFromMap.loop ext initLocals [(StorageClassReplicaName, "3")] =
      .ok { initLocals with replica := 3 } := by
    rw [loop_cons, body_replica ext _ _ rfl, ha]
    simp [NewQingStorageClassFromMap.loop]
  rw [NewQingStorageClassFromMap_of_loop_ok ext _ topology _ hl]
  have hv : VolumeType.IsValid (resolvedType (-1) topology) = true :=
    resolvedType_default_valid topology
  have hr : IsValidReplica 3 = false := by decide
  simp [initLocals, hv, hr, QingStorageClass.GetReplica, DefaultDiskReplicaType,
    DiskMultiReplicaType]

/-- C2 (defect of the code): the value "-1" of `type` parses as the integer -1,
which is not a key of `VolumeTypeName`, and yet on the mapping with the single
entry `type` = "-1" `NewQingStorageClassFromMap` returns a storage class and no
error, for every topology (with the default volume type when there is no
topology): -1 is also the value that stands for an absent `type`. The value
"9999" is rejected as the claim says. -/
theorem C2_type_minus_one_accepted :
    Atoi "-1" = .ok (-1) ∧ VolumeType.IsValid (-1) = false ∧
    (∀ (ext : Externals) (topology : Option Topology),
      ∃ sc, NewQingStorageClassFromMap ext [(StorageClassTypeName, "-1")] topology = .ok sc) ∧
    (∀ (ext : Externals),
      ∃ sc, NewQingStorageClassFromMap ext [(StorageClassTypeName, "-1")] none = .ok sc ∧
        sc.GetDiskType = DefaultVolumeType) ∧
    (∀ (ext : Externals) (topology : Option Topology),
      NewQingStorageClassFromMap ext [(StorageClassTypeName, "9999")] topology =
        .error (.unsupportedVolumeType 9999)) := by
  have ha : Atoi "-1" = .ok (-1) := by decide
  have hl : ∀ ext, NewQingStorageClassFromMap.loop ext initLocals
      [(StorageClassTypeName, "-1")] = .ok initLocals := by
    intro ext
    rw [loop_cons, body_type ext _ _ rfl, ha]
    simp [NewQingStorageClassFromMap.loop, initLocals]
  refine ⟨ha, by decide, ?_, ?_, ?_⟩
  · intro ext topology
    rw [NewQingStorageClassFromMap_of_loop_ok ext _ topology _ (hl ext)]
    have hv : VolumeType.IsValid (resolvedType (-1) topology) = true :=
      resolvedType_default_valid topology
    simp [initLocals, hv]
  · intro ext
    rw [NewQingStorageClassFromMap_of_loop_ok ext _ none _ (hl ext)]
    have hv : VolumeType.IsValid (resolvedType (-1) none) = true :=
      resolvedType_default_valid none
    simp [initLocals, hv, QingStorageClass.GetDiskType]
    rfl
  · intro ext topology
    have hb : Atoi "9999" = .ok 9999 := by decide
    have hl2 : NewQingStorageClassFromMap.loop ext initLocals
        [(StorageClassTypeName, "9999")] = .ok { initLocals with volType := 9999 } := by
      rw [loop_cons, body_type ext _ _ rfl, hb]
      simp [NewQingStorageClassFromMap.loop]
    rw [NewQingStorageClassFromMap_of_loop_ok ext _ topology _ hl2]
    have hv : VolumeType.IsValid (resolvedType 9999 topology) = false := by
      have : resolvedType 9999 topology = 9999 := by
        unfold resolvedType; rw [if_neg (by decide)]
      rw [this]; decide
    simp [hv]

/-- C3, counterexample: the map with the keys "type" and "TYPE", which coincide
after lower-casing, resolves to the volume type 0 in one iteration order and to
100 in the other; and on the map with an unparsable `type` and an unsupported
`fsType` the error that is returned depends on the order. -/
theorem C3_counterexample :
    IsGoMap [("type", "100"), ("TYPE", "0")] ∧
    List.Perm [("type", "100"), ("TYPE", "0")] [("TYPE", "0"), ("type", "100")] ∧
    NewQingStorageClassFromMap stdExt [("type", "100"), ("TYPE", "0")] none =
      .ok { diskType := 0, fsType := "ext4", replica := 2, tags := [] } ∧
    NewQingStorageClassFromMap stdExt [("TYPE", "0"), ("type", "100")] none =
      .ok { diskType := 100, fsType := "ext4", replica := 2, tags := [] } ∧
    IsGoMap [("type", "abc"), ("fsType", "ntfs")] ∧
    NewQingStorageClassFromMap stdExt [("type", "abc"), ("fsType", "ntfs")] none =
      .error (.numError "abc") ∧
    NewQingStorageClassFromMap stdExt [("fsType", "ntfs"), ("type", "abc")] none =
      .error (.unsupportedFilesystem "ntfs") := by
  refine ⟨by decide, List.Perm.swap _ _ _, by decide, by decide, by decide, by decide,
    by decide⟩

/-- C3, amended: for every option mapping in which each of the recognized keys
`type`, `fsType`, `replica`, `tags` occurs at most once up to letter case, and
every topology, any two iteration orders of the entries give the same outcome:
both fail, or both succeed with the same volume type, fsType, replica and tags
(the error returned on failure may depend on the order). -/
theorem C3_order_independent (ext : Externals) (opt1 opt2 : List (String × String))
    (topology : Option Topology) (hperm : opt1.Perm opt2) (honce : RecognizedKeysOnce opt1) :
    (NewQingStorageClassFromMap ext opt1 topology).toOption =
      (NewQingStorageClassFromMap ext opt2 topology).toOption :=
  order_independent ext opt1 opt2 topology hperm honce

/-- C3, witness: the four recognized keys in two different orders. -/
theorem C3_order_independent_witness :
    List.Perm [("type", "100"), ("fsType", "ext4"), ("replica", "1"), ("tags", "a, b ,c")]
      [("tags", "a, b ,c"), ("replica", "1"), ("fsType", "ext4"), ("type", "100")] ∧
    RecognizedKeysOnce
      [("type", "100"), ("fsType", "ext4"), ("replica", "1"), ("tags", "a, b ,c")] ∧
    (NewQingStorageClassFromMap stdExt
        [("type", "100"), ("fsType", "ext4"), ("replica", "1"), ("tags", "a, b ,c")]
        none).toOption =
      (NewQingStorageClassFromMap stdExt
        [("tags", "a, b ,c"), ("replica", "1"), ("fsType", "ext4"), ("type", "100")]
        none).toOption :=
  have hp : List.Perm [("type", "100"), ("fsType", "ext4"), ("replica", "1"), ("tags", "a, b ,c")]
      [("tags", "a, b ,c"), ("replica", "1"), ("fsType", "ext4"), ("type", "100")] := by
    decide
  have ho : RecognizedKeysOnce
      [("type", "100"), ("fsType", "ext4"), ("replica", "1"), ("tags", "a, b ,c")] := by
    decide
  ⟨hp, ho, C3_order_independent stdExt _ _ none hp ho⟩

/-- C4: whenever `NewQingStorageClassFromMap` returns a storage class, its disk
type is valid, its replica count is 1 or 2, and its fsType is empty or accepted
by `IsValidFileSystemType`, provided that the default filesystem is accepted by
`IsValidFileSystemType`. -/
theorem C4_invariants (ext : Externals) (opt : List (String × String))
    (topology : Option Topology) (sc : QingStorageClass)
    (hdef : ext.IsValidFileSystemType ext.DefaultFileSystem = true)
    (h : NewQingStorageClassFromMap ext opt topology = .ok sc) :
    VolumeType.IsValid sc.GetDiskType = true ∧
    (sc.GetReplica = 1 ∨ sc.GetReplica = 2) ∧
    (sc.GetFsType = "" ∨ ext.IsValidFileSystemType sc.GetFsType = true) := by
  cases hl : NewQingStorageClassFromMap.loop ext initLocals opt with
  | error err =>
    rw [NewQingStorageClassFromMap_of_loop_error ext opt topology err hl] at h
    cases h
  | ok st =>
    rw [NewQingStorageClassFromMap_of_loop_ok ext opt topology st hl] at h
    cases hv : VolumeType.IsValid (resolvedType st.volType topology) with
    | false => simp [hv] at h
    | true =>
      simp only [hv, Bool.true_eq_false, if_false] at h
      injection h with h
      subst h
      refine ⟨hv, ?_, ?_⟩
      · simp only [QingStorageClass.GetReplica]
        cases hr : IsValidReplica st.replica with
        | false => right; simp [DefaultDiskReplicaType, DiskMultiReplicaType]
        | true =>
          simp only [if_true]
          simpa [IsValidReplica, DiskSingleReplicaType, DiskMultiReplicaType] using hr
      · simp only [QingStorageClass.GetFsType]
        right
        cases hf : ext.IsValidFileSystemType st.fsType with
        | false => simpa using hdef
        | true => simpa using hf

/-- C4, witness: the mapping with the four recognized keys. -/
theorem C4_invariants_witness :
    stdExt.IsValidFileSystemType stdExt.DefaultFileSystem = true ∧
    NewQingStorageClassFromMap stdExt
        [("type", "100"), ("fsType", "xfs"), ("replica", "1"), ("tags", "a, b ,c")] none =
      .ok { diskType := 100, fsType := "xfs", replica := 1, tags := ["a", "b", "c"] } ∧
    VolumeType.IsValid (QingStorageClass.GetDiskType
      { diskType := 100, fsType := "xfs", replica := 1, tags := ["a", "b", "c"] }) = true ∧
    ((QingStorageClass.GetReplica
        { diskType := 100, fsType := "xfs", replica := 1, tags := ["a", "b", "c"] } = 1 ∨
      QingStorageClass.GetReplica
        { diskType := 100, fsType := "xfs", replica := 1, tags := ["a", "b", "c"] } = 2) ∧
    (QingStorageClass.GetFsType
        { diskType := 100, fsType := "xfs", replica := 1, tags := ["a", "b", "c"] } = "" ∨
      stdExt.IsValidFileSystemType (QingStorageClass.GetFsType
        { diskType := 100, fsType := "xfs", replica := 1, tags := ["a", "b", "c"] }) = true)) :=
  ⟨by decide, by decide,
    C4_invariants stdExt
      [("type", "100"), ("fsType", "xfs"), ("replica", "1"), ("tags", "a, b ,c")] none
      { diskType := 100, fsType := "xfs", replica := 1, tags := ["a", "b", "c"] }
      (by decide) (by decide)⟩

/-- C5, counterexample: on the `tags` value `a,<tab>b` the second returned tag
is `<tab>b`, which contains the whitespace character tab: only the space
character is removed. -/
theorem C5_counterexample :
    NewQingStorageClassFromMap stdExt [("tags", "a,\tb")] none =
      .ok { diskType := 100, fsType := "ext4", replica := 2, tags := ["a", "\tb"] } ∧
    (Char.ofNat 9).isWhitespace = true ∧
    Char.ofNat 9 ∈ "\tb".data := by
  refine ⟨by decide, by decide, by decide⟩

/-- C5, amended: for every option mapping on which `NewQingStorageClassFromMap`
succeeds: if the mapping has no `tags` key, or only with the empty string as
value, `GetTags()` is empty; if the value of its `tags` key is a non-empty
string `v`, `GetTags()` is exactly the sequence obtained by removing every space
character (U+0020, and no other whitespace) from `v` and then splitting it at
commas; in every case no returned tag contains a space character. -/
theorem C5_tags (ext : Externals) (opt : List (String × String))
    (topology : Option Topology) (sc : QingStorageClass)
    (h : NewQingStorageClassFromMap ext opt topology = .ok sc) :
    ((∀ e ∈ opt, keyIs StorageClassTagsName e.1 → e.2 = "") → sc.GetTags = []) ∧
    (∀ v, v ≠ "" → (∃ k, (k, v) ∈ opt ∧ keyIs StorageClassTagsName k) →
      (∀ e ∈ opt, keyIs StorageClassTagsName e.1 → e.2 = v) →
      sc.GetTags = Split (ReplaceAll v (Char.ofNat 32)) (Char.ofNat 44)) ∧
    (∀ tag ∈ sc.GetTags, Char.ofNat 32 ∉ tag.data) := by
  cases hl : NewQingStorageClassFromMap.loop ext initLocals opt with
  | error err =>
    rw [NewQingStorageClassFromMap_of_loop_error ext opt topology err hl] at h
    cases h
  | ok st =>
    rw [NewQingStorageClassFromMap_of_loop_ok ext opt topology st hl] at h
    cases hv : VolumeType.IsValid (resolvedType st.volType topology) with
    | false => simp [hv] at h
    | true =>
      simp only [hv, Bool.true_eq_false, if_false] at h
      injection h with h
      subst h
      simp only [QingStorageClass.GetTags]
      have ft := (loop_facts ext opt initLocals st hl).tags
      refine ⟨?_, ?_, ?_⟩
      · intro hall
        rcases ft with ⟨heq, _⟩ | ⟨e, he, hk, hne, _⟩
        · rw [heq]; rfl
        · exact absurd (hall e he hk) hne
      · intro v hv ⟨k, hkv, hk⟩ hall
        rcases ft with ⟨_, hno⟩ | ⟨e, he, hk1, _, heq⟩
        · exact absurd (hno (k, v) hkv hk) hv
        · rw [heq, hall e he hk1]
      · intro tag htag
        rcases ft with ⟨heq, _⟩ | ⟨e, _, _, _, heq⟩
        · rw [heq] at htag
          simp [initLocals] at htag
        · rw [heq] at htag
          exact Split_ReplaceAll_no_old _ _ _ tag htag

/-- C5, witness: the `tags` value `a, b ,c` gives the tags a, b, c. -/
theorem C5_tags_witness :
    NewQingStorageClassFromMap stdExt [("tags", "a, b ,c")] none =
      .ok { diskType := 100, fsType := "ext4", replica := 2, tags := ["a", "b", "c"] } ∧
    QingStorageClass.GetTags
        { diskType := 100, fsType := "ext4", replica := 2, tags := ["a", "b", "c"] } =
      Split (ReplaceAll "a, b ,c" (Char.ofNat 32)) (Char.ofNat 44) ∧
    (∀ tag ∈ QingStorageClass.GetTags
        { diskType := 100, fsType := "ext4", replica := 2, tags := ["a", "b", "c"] },
      Char.ofNat 32 ∉ tag.data) :=
  have h := C5_tags stdExt [("tags", "a, b ,c")] none
    { diskType := 100, fsType := "ext4", replica := 2, tags := ["a", "b", "c"] } (by decide)
  ⟨by decide,
    h.2.1 "a, b ,c" (by decide) ⟨"tags", by simp, by decide⟩
      (by intro e he _; simp at he; rw [he]),
    h.2.2⟩

/-- C6: for every option mapping without a `type` key whose entries pass the
checks of the loop, and every topology with instance type `i`,
`NewQingStorageClassFromMap` succeeds, with the disk type
`InstanceTypeAttachPreferred[i]` when `i` is a key of that table and
`DefaultVolumeType` when it is not. -/
theorem C6_preferred_type (ext : Externals) (opt : List (String × String)) (topo : Topology)
    (hno : ∀ e ∈ opt, ¬ keyIs StorageClassTypeName e.1)
    (hvalid : ∀ e ∈ opt, EntryValid ext e.1 e.2) :
    ∃ sc, NewQingStorageClassFromMap ext opt (some topo) = .ok sc ∧
      (∀ p, InstanceTypeAttachPreferred.lookup topo.GetInstanceType = some p →
        sc.GetDiskType = p) ∧
      (InstanceTypeAttachPreferred.lookup topo.GetInstanceType = none →
        sc.GetDiskType = DefaultVolumeType) := by
  obtain ⟨st, hl⟩ := (loop_ok_iff ext opt initLocals).2 hvalid
  have hvol : st.volType = -1 := by
    rcases (loop_facts ext opt initLocals st hl).volType with ⟨heq, _⟩ | ⟨e, he, hk, _⟩
    · rw [heq]; rfl
    · exact absurd hk (hno e he)
  rw [NewQingStorageClassFromMap_of_loop_ok ext opt (some topo) st hl, hvol]
  have hv := resolvedType_default_valid (some topo)
  simp only [hv, Bool.true_eq_false, if_false]
  refine ⟨_, rfl, ?_, ?_⟩
  · intro p hp
    simp [QingStorageClass.GetDiskType, resolvedType, hp]
  · intro hp
    simp [QingStorageClass.GetDiskType, resolvedType, hp]

/-- C6, witness: a mapping with only an `fsType`, on a node of the instance type
`HighPerformanceInstanceType`, whose preferred volume type is
`HighPerformanceVolumeType`. -/
theorem C6_preferred_type_witness :
    ∃ sc, NewQingStorageClassFromMap stdExt [("fsType", "xfs")]
        (some { instanceType := HighPerformanceInstanceType }) = .ok sc ∧
      (∀ p, InstanceTypeAttachPreferred.lookup
          (Topology.GetInstanceType { instanceType := HighPerformanceInstanceType }) = some p →
        sc.GetDiskType = p) ∧
      (InstanceTypeAttachPreferred.lookup
          (Topology.GetInstanceType { instanceType := HighPerformanceInstanceType }) = none →
        sc.GetDiskType = DefaultVolumeType) :=
  C6_preferred_type stdExt [("fsType", "xfs")] { instanceType := HighPerformanceInstanceType }
    (by decide)
    (by
      intro e he
      simp at he
      rw [he]
      exact ⟨fun h => absurd h (by decide), fun _ => Or.inr (by decide),
        fun h => absurd h (by decide)⟩)

/-- C7, counterexample: with the empty `tags` value the returned tags are empty,
while the comma-split of the empty string is the sequence of one empty string;
with the `tags` value of one space, whose removal leaves the empty string too,
the returned tags are the sequence of one empty string. -/
theorem C7_counterexample :
    NewQingStorageClassFromMap stdExt
        [("type", "100"), ("fsType", "ext4"), ("replica", "1"), ("tags", "")] none =
      .ok { diskType := 100, fsType := "ext4", replica := 1, tags := [] } ∧
    Split (ReplaceAll "" (Char.ofNat 32)) (Char.ofNat 44) = [""] ∧
    NewQingStorageClassFromMap stdExt
        [("type", "100"), ("fsType", "ext4"), ("replica", "1"), ("tags", " ")] none =
      .ok { diskType := 100, fsType := "ext4", replica := 1, tags := [""] } ∧
    ReplaceAll " " (Char.ofNat 32) = ReplaceAll "" (Char.ofNat 32) := by
  refine ⟨by decide, by decide, by decide, by decide⟩

/-- C7, amended: for every registered volume-type code `t`, every supported
filesystem `f`, every replica `r` in {1, 2}, every `tags` value `s` and every
topology, `NewQingStorageClassFromMap` on the mapping {type: t, fsType: f,
replica: r, tags: s}, in any iteration order and with the numbers written in any
way that `strconv.Atoi` reads, succeeds with the disk type `t`, the fsType `f`,
the replica `r`, and with the tags that are the comma-split of `s` with its
spaces removed when `s` is not empty, and no tags when `s` is empty. -/
theorem C7_explicit_fields (ext : Externals) (t r : Int) (tv f rv s : String)
    (opt : List (String × String)) (topology : Option Topology)
    (ht : VolumeType.IsValid t = true) (htv : Atoi tv = .ok t)
    (hf : ext.IsValidFileSystemType f = true) (hr : r = 1 ∨ r = 2) (hrv : Atoi rv = .ok r)
    (hopt : opt.Perm
      [(StorageClassTypeName, tv), (StorageClassFsTypeName, f), (StorageClassReplicaName, rv),
        (StorageClassTagsName, s)]) :
    NewQingStorageClassFromMap ext opt topology =
      .ok
        { diskType := t
          fsType := f
          replica := r
          tags := if s = "" then [] else Split (ReplaceAll s (Char.ofNat 32)) (Char.ofNat 44) } := by
  apply toOption_eq_some
  rw [order_independent ext opt _ topology hopt ((RecognizedKeysOnce_four tv f rv s).perm hopt.symm),
    four_keys_in_order ext t r tv f rv s topology ht htv hf hr hrv]
  rfl

/-- C7, witness: the mapping of the specification, visited in another order and
on a node with a topology. -/
theorem C7_explicit_fields_witness :
    NewQingStorageClassFromMap stdExt
        [("tags", "a, b ,c"), ("fsType", "ext4"), ("type", "100"), ("replica", "1")]
        (some { instanceType := HighPerformanceInstanceType }) =
      .ok { diskType := StandardVolumeType, fsType := "ext4", replica := 1,
            tags := ["a", "b", "c"] } :=
  C7_explicit_fields stdExt 100 1 "100" "ext4" "1" "a, b ,c"
    [("tags", "a, b ,c"), ("fsType", "ext4"), ("type", "100"), ("replica", "1")]
    (some { instanceType := HighPerformanceInstanceType })
    (by decide) (by decide) (by decide) (by decide) (by decide) (by decide)

/-- C8: for every option mapping whose `type` values parse as registered
volume types and whose `replica` values parse, and every topology: if an `fsType`
value is non-empty and not accepted by `IsValidFileSystemType`,
`NewQingStorageClassFromMap` fails with the unsupported-filesystem error of such
a value; if the `fsType` value is the empty string, the result is the one on the
mapping without the `fsType` key, and, the empty string not being accepted by
`IsValidFileSystemType`, a storage class whose fsType is the default
filesystem. -/
theorem C8_fsType (ext : Externals) (opt : List (String × String))
    (topology : Option Topology)
    (hothers : ∀ e ∈ opt,
      (keyIs StorageClassTypeName e.1 → ∃ iv, Atoi e.2 = .ok iv ∧ VolumeType.IsValid iv = true) ∧
      (keyIs StorageClassReplicaName e.1 → ∃ iv, Atoi e.2 = .ok iv)) :
    ((∃ e ∈ opt, keyIs StorageClassFsTypeName e.1 ∧ e.2 ≠ "" ∧
        ext.IsValidFileSystemType e.2 = false) →
      ∃ e ∈ opt, keyIs StorageClassFsTypeName e.1 ∧ e.2 ≠ "" ∧
        ext.IsValidFileSystemType e.2 = false ∧
        NewQingStorageClassFromMap ext opt topology = .error (.unsupportedFilesystem e.2)) ∧
    ((∀ e ∈ opt, keyIs StorageClassFsTypeName e.1 → e.2 = "") →
      NewQingStorageClassFromMap ext opt topology =
        NewQingStorageClassFromMap ext
          (opt.filter (fun e => !decide (keyIs StorageClassFsTypeName e.1))) topology ∧
      (ext.IsValidFileSystemType "" = false →
        ∃ sc, NewQingStorageClassFromMap ext opt topology = .ok sc ∧
          sc.GetFsType = ext.DefaultFileSystem)) := by
  refine ⟨?_, ?_⟩
  · rintro ⟨e0, he0, hk0, hne0, hbad0⟩
    cases hl : NewQingStorageClassFromMap.loop ext initLocals opt with
    | ok st =>
      have hall := (loop_ok_iff ext opt initLocals).1 ⟨st, hl⟩
      rcases (hall e0 he0).2.1 hk0 with h | h
      · exact absurd h hne0
      · rw [hbad0] at h; cases h
    | error err =>
      obtain ⟨e, he, hh⟩ := loop_error ext opt initLocals err hl
      rcases hh with ⟨_, hkey, hnone⟩ | ⟨herr, hk, hne, hbad⟩
      · exfalso
        rcases hkey with hkey | hkey
        · obtain ⟨iv, hiv, _⟩ := (hothers e he).1 hkey
          exact hnone iv hiv
        · obtain ⟨iv, hiv⟩ := (hothers e he).2 hkey
          exact hnone iv hiv
      · refine ⟨e, he, hk, hne, hbad, ?_⟩
        rw [NewQingStorageClassFromMap_of_loop_error ext opt topology err hl, herr]
  · intro hempty
    refine ⟨?_, ?_⟩
    · unfold NewQingStorageClassFromMap
      have := loop_filter_empty_fsType ext opt initLocals rfl hempty
      unfold initLocals at this
      rw [this]
    · intro hnot
      have hall : ∀ e ∈ opt, EntryValid ext e.1 e.2 := by
        intro e he
        refine ⟨fun hk => ?_, fun hk => Or.inl (hempty e he hk), (hothers e he).2⟩
        obtain ⟨iv, hiv, _⟩ := (hothers e he).1 hk
        exact ⟨iv, hiv⟩
      obtain ⟨st, hl⟩ := (loop_ok_iff ext opt initLocals).2 hall
      have facts := loop_facts ext opt initLocals st hl
      have hfs : st.fsType = "" := by
        rcases facts.fsType with ⟨heq, _⟩ | ⟨e, he, hk, heq⟩
        · rw [heq]; rfl
        · rw [heq]; exact hempty e he hk
      have hvt : VolumeType.IsValid (resolvedType st.volType topology) = true := by
        apply resolvedType_valid
        rcases facts.volType with ⟨heq, _⟩ | ⟨e, he, hk, heq⟩
        · right; rw [heq]; rfl
        · left
          obtain ⟨iv, hiv, hval⟩ := (hothers e he).1 hk
          rw [heq] at hiv
          injection hiv with hiv
          rw [hiv]; exact hval
      rw [NewQingStorageClassFromMap_of_loop_ok ext opt topology st hl]
      simp [hvt, hfs, hnot, QingStorageClass.GetFsType]

/-- C8, witness: the unsupported filesystem `ntfs` is rejected, and the empty
`fsType` gives the default filesystem. -/
theorem C8_fsType_witness :
    (∃ e ∈ [("type", "100"), ("fsType", "ntfs")],
      keyIs StorageClassFsTypeName e.1 ∧ e.2 ≠ "" ∧ stdExt.IsValidFileSystemType e.2 = false ∧
      NewQingStorageClassFromMap stdExt [("type", "100"), ("fsType", "ntfs")] none =
        .error (.unsupportedFilesystem e.2)) ∧
    (∃ sc, NewQingStorageClassFromMap stdExt [("type", "100"), ("fsType", "")] none = .ok sc ∧
      sc.GetFsType = stdExt.DefaultFileSystem) :=
  have hparse : ∀ (fs : String), ∀ e ∈ [("type", "100"), ("fsType", fs)],
      (keyIs StorageClassTypeName e.1 →
        ∃ iv, Atoi e.2 = .ok iv ∧ VolumeType.IsValid iv = true) ∧
      (keyIs StorageClassReplicaName e.1 → ∃ iv, Atoi e.2 = .ok iv) := by
    intro fs e he
    simp only [List.mem_cons, List.mem_singleton, List.mem_nil_iff, or_false] at he
    rcases he with rfl | rfl
    · exact ⟨fun _ => ⟨100, by decide, by decide⟩, fun h => absurd h (by decide)⟩
    · exact ⟨fun h => absurd (show keyIs StorageClassTypeName "fsType" from h) (by decide),
        fun h => absurd (show keyIs StorageClassReplicaName "fsType" from h) (by decide)⟩
  ⟨(C8_fsType stdExt [("type", "100"), ("fsType", "ntfs")] none (hparse "ntfs")).1
      ⟨("fsType", "ntfs"), by simp, by decide, by decide, by decide⟩,
    ((C8_fsType stdExt [("type", "100"), ("fsType", "")] none (hparse "")).2
      (by
        intro e he _
        simp only [List.mem_cons, List.mem_singleton, List.mem_nil_iff, or_false] at he
        rcases he with rfl | rfl
        · exact absurd (show keyIs StorageClassFsTypeName "type" by assumption) (by decide)
        · rfl)).2 (by decide)⟩

/-- C9: `GetRequiredVolumeSizeByte` fails exactly when the limit is positive and
exceeded by the required bytes; when it does not fail it returns the required
bytes if they are positive and 0 otherwise; without a range it returns 0 and no
error; the result does not depend on the storage class. (10Gi, 5Gi) fails and
(0, 0) returns 0. -/
theorem C9_required_size (ext : Externals) (sc : QingStorageClass)
    (requiredBytes limitBytes : Int) :
    (((sc.GetRequiredVolumeSizeByte ext
          (some { RequiredBytes := requiredBytes, LimitBytes := limitBytes })).2 ≠ none) ↔
      (limitBytes > 0 ∧ requiredBytes > limitBytes)) ∧
    ((sc.GetRequiredVolumeSizeByte ext
          (some { RequiredBytes := requiredBytes, LimitBytes := limitBytes })).2 = none →
      (sc.GetRequiredVolumeSizeByte ext
          (some { RequiredBytes := requiredBytes, LimitBytes := limitBytes })).1 =
        if requiredBytes > 0 then requiredBytes else 0) ∧
    sc.GetRequiredVolumeSizeByte ext none = (0, none) ∧
    (∀ (sc1 : QingStorageClass) (capRange : Option CapacityRange),
      sc1.GetRequiredVolumeSizeByte ext capRange = sc.GetRequiredVolumeSizeByte ext capRange) ∧
    (sc.GetRequiredVolumeSizeByte ext
        (some { RequiredBytes := 10 * 1073741824, LimitBytes := 5 * 1073741824 })).2 ≠ none ∧
    sc.GetRequiredVolumeSizeByte ext (some { RequiredBytes := 0, LimitBytes := 0 }) =
      (0, none) := by
  refine ⟨?_, ?_, ?_, ?_, ?_, ?_⟩
  · simp only [QingStorageClass.GetRequiredVolumeSizeByte, CapacityRange.GetRequiredBytes,
      CapacityRange.GetLimitBytes]
    by_cases h1 : requiredBytes > 0
    · by_cases h2 : limitBytes > 0 ∧ requiredBytes > limitBytes
      · simp [h1, h2]
      · simp [h1, h2]
    · by_cases h2 : limitBytes > 0 ∧ (0 : Int) > limitBytes
      · omega
      · have h3 : ¬ (limitBytes > 0 ∧ requiredBytes > limitBytes) := by omega
        simp [h1, h2, h3]
  · intro _
    simp only [QingStorageClass.GetRequiredVolumeSizeByte, CapacityRange.GetRequiredBytes,
      CapacityRange.GetLimitBytes]
    by_cases h1 : requiredBytes > 0
    · by_cases h2 : limitBytes > 0 ∧ requiredBytes > limitBytes
      · simp_all [QingStorageClass.GetRequiredVolumeSizeByte, CapacityRange.GetRequiredBytes,
          CapacityRange.GetLimitBytes]
      · simp [h1, h2]
    · by_cases h2 : limitBytes > 0 ∧ (0 : Int) > limitBytes
      · omega
      · simp [h1, h2]
  · simp [QingStorageClass.GetRequiredVolumeSizeByte]
  · intro sc1 capRange
    rfl
  · simp [QingStorageClass.GetRequiredVolumeSizeByte, CapacityRange.GetRequiredBytes,
      CapacityRange.GetLimitBytes]
  · simp [QingStorageClass.GetRequiredVolumeSizeByte, CapacityRange.GetRequiredBytes,
      CapacityRange.GetLimitBytes]

theorem ValidateAttachedOn_loop_iff (i : InstanceType) :
    ∀ (l : List InstanceType), ValidateAttachedOn.loop i l = true ↔ i ∈ l := by
  intro l
  induction l with
  | nil => simp [ValidateAttachedOn.loop]
  | cons x xs ih =>
    unfold ValidateAttachedOn.loop
    by_cases hx : x = i
    · simp [hx]
    · have hx1 : ¬ i = x := fun h => hx h.symm
      simp [hx, hx1, ih]

/-- C10: for every volume type `v` and instance type `i`, `v.ValidateAttachedOn(i)`
is true if and only if `v` is a key of `VolumeTypeAttachConstraint` and `i`
occurs in the list of `v`; it is false for every `i` when `v` is not a key. -/
theorem C10_ValidateAttachedOn (v : VolumeType) (i : InstanceType) :
    (VolumeType.ValidateAttachedOn v i = true ↔
      ∃ l, VolumeTypeAttachConstraint.lookup v = some l ∧ i ∈ l) ∧
    (VolumeTypeAttachConstraint.lookup v = none →
      VolumeType.ValidateAttachedOn v i = false) := by
  unfold VolumeType.ValidateAttachedOn indexSlice
  cases h : VolumeTypeAttachConstraint.lookup v with
  | none => simp [ValidateAttachedOn.loop]
  | some l => simp [ValidateAttachedOn_loop_iff]

/-- C11: a volume-type code is valid exactly when it is one of the registered
codes 0, 2, 3, 5, 6, 100, 200; `String()` is a non-empty string on a valid code
and the empty string on an invalid one. -/
theorem C11_IsValid_String (v : VolumeType) :
    (VolumeType.IsValid v = true ↔ v ∈ ([0, 2, 3, 5, 6, 100, 200] : List Int)) ∧
    (VolumeType.IsValid v = true → VolumeType.String v ≠ "") ∧
    (VolumeType.IsValid v = false → VolumeType.String v = "") := by
  refine ⟨⟨?_, ?_⟩, ?_, ?_⟩
  · intro h
    rcases IsValid_cases v h with h | h | h | h | h | h | h <;> simp [h]
  · intro h
    simp only [List.mem_cons, List.mem_singleton, List.mem_nil_iff, or_false] at h
    rcases h with rfl | rfl | rfl | rfl | rfl | rfl | rfl <;> decide
  · intro h
    rcases IsValid_cases v h with rfl | rfl | rfl | rfl | rfl | rfl | rfl <;> decide
  · intro h
    unfold VolumeType.IsValid at h
    unfold VolumeType.String
    cases hl : VolumeTypeName.lookup v with
    | none => rfl
    | some name => simp [hl] at h

/-- C12: every value of `InstanceTypeAttachPreferred` is a valid volume type, and
every valid volume type is a key of `VolumeTypeAttachConstraint`. -/
theorem C12_tables_well_formed :
    (∀ e ∈ InstanceTypeAttachPreferred, VolumeType.IsValid e.2 = true) ∧
    (∀ v : VolumeType, VolumeType.IsValid v = true →
      ∃ l, VolumeTypeAttachConstraint.lookup v = some l) := by
  refine ⟨by decide, ?_⟩
  intro v h
  rcases IsValid_cases v h with rfl | rfl | rfl | rfl | rfl | rfl | rfl <;>
    exact ⟨_, rfl⟩

/-- The keys of a table of the seven volume types are valid volume types. -/
theorem lookup_size_valid (v : VolumeType) (x : Int) :
    (VolumeTypeToStepSize.lookup v = some x → VolumeType.IsValid v = true) ∧
    (VolumeTypeToMaxSize.lookup v = some x → VolumeType.IsValid v = true) := by
  refine ⟨?_, ?_⟩
  · intro h
    have hm := lookup_mem _ _ _ h
    simp only [VolumeTypeToStepSize, List.mem_cons, Prod.mk.injEq, List.mem_nil_iff,
      or_false] at hm
    rcases hm with h | h | h | h | h | h | h <;> (rw [h.1]; decide)
  · intro h
    have hm := lookup_mem _ _ _ h
    simp only [VolumeTypeToMaxSize, List.mem_cons, Prod.mk.injEq, List.mem_nil_iff,
      or_false] at hm
    rcases hm with h | h | h | h | h | h | h <;> (rw [h.1]; decide)

/-- C17: for every valid volume type, `VolumeTypeToStepSize` and
`VolumeTypeToMaxSize` both have an entry, both entries are positive, and the
step size does not exceed the maximum size; neither table has an entry for an
invalid volume type. -/
theorem C17_size_tables (v : VolumeType) :
    (VolumeType.IsValid v = true →
      ∃ step max, VolumeTypeToStepSize.lookup v = some step ∧
        VolumeTypeToMaxSize.lookup v = some max ∧ 0 < step ∧ 0 < max ∧ step ≤ max) ∧
    (VolumeType.IsValid v = false →
      VolumeTypeToStepSize.lookup v = none ∧ VolumeTypeToMaxSize.lookup v = none) := by
  refine ⟨?_, ?_⟩
  · intro h
    rcases IsValid_cases v h with rfl | rfl | rfl | rfl | rfl | rfl | rfl
    · exact ⟨10, 2000, rfl, rfl, by decide, by decide, by decide⟩
    · exact ⟨50, 5000, rfl, rfl, by decide, by decide, by decide⟩
    · exact ⟨10, 2000, rfl, rfl, by decide, by decide, by decide⟩
    · exact ⟨100, 50000, rfl, rfl, by decide, by decide, by decide⟩
    · exact ⟨100, 50000, rfl, rfl, by decide, by decide, by decide⟩
    · exact ⟨10, 2000, rfl, rfl, by decide, by decide, by decide⟩
    · exact ⟨10, 2000, rfl, rfl, by decide, by decide, by decide⟩
  · intro h
    refine ⟨?_, ?_⟩
    · cases hl : VolumeTypeToStepSize.lookup v with
      | none => rfl
      | some x =>
        rw [(lookup_size_valid v x).1 hl] at h
        cases h
    · cases hl : VolumeTypeToMaxSize.lookup v with
      | none => rfl
      | some x =>
        rw [(lookup_size_valid v x).2 hl] at h
        cases h

/-- C17, witness: the volume type `NeonSANVolumeType`, with the step 100 and the
maximum 50000, and the unregistered code 1. -/
theorem C17_size_tables_witness :
    (∃ step max, VolumeTypeToStepSize.lookup NeonSANVolumeType = some step ∧
      VolumeTypeToMaxSize.lookup NeonSANVolumeType = some max ∧ 0 < step ∧ 0 < max ∧
      step ≤ max) ∧
    (VolumeTypeToStepSize.lookup 1 = none ∧ VolumeTypeToMaxSize.lookup 1 = none) :=
  ⟨(C17_size_tables NeonSANVolumeType).1 (by decide), (C17_size_tables 1).2 (by decide)⟩

/-- C18 (defect of the code): the preferred volume type of the instance type
`HighPerformanceSANInstanceType` is `NeonSANVolumeType`, whose list in
`VolumeTypeAttachConstraint` does not hold this instance type (the list of
`NeonSANHDDVolumeType` does); so the storage class resolved from the empty
mapping on such a node names a volume type that cannot be attached to it. For
every other key of `InstanceTypeAttachPreferred` the preferred volume type can
be attached. -/
theorem C18_preferred_not_attachable :
    InstanceTypeAttachPreferred.lookup HighPerformanceSANInstanceType =
      some NeonSANVolumeType ∧
    VolumeType.ValidateAttachedOn NeonSANVolumeType HighPerformanceSANInstanceType = false ∧
    VolumeType.ValidateAttachedOn NeonSANHDDVolumeType HighPerformanceSANInstanceType = true ∧
    (∀ e ∈ InstanceTypeAttachPreferred, e.1 ≠ HighPerformanceSANInstanceType →
      VolumeType.ValidateAttachedOn e.2 e.1 = true) ∧
    (∀ ext : Externals,
      ∃ sc, NewQingStorageClassFromMap ext []
          (some { instanceType := HighPerformanceSANInstanceType }) = .ok sc ∧
        VolumeType.ValidateAttachedOn sc.GetDiskType HighPerformanceSANInstanceType = false) := by
  refine ⟨by decide, by decide, by decide, by decide, ?_⟩
  intro ext
  have hl : NewQingStorageClassFromMap.loop ext initLocals [] = .ok initLocals := rfl
  rw [NewQingStorageClassFromMap_of_loop_ok ext []
    (some { instanceType := HighPerformanceSANInstanceType }) initLocals hl]
  have hr : resolvedType initLocals.volType
      (some { instanceType := HighPerformanceSANInstanceType }) = NeonSANVolumeType := by
    decide
  rw [hr]
  refine ⟨_, if_neg (by decide), ?_⟩
  simp only [QingStorageClass.GetDiskType]
  decide

/-- C20: when `v.ValidateAttachedOn(i)` is true, `v` is a valid volume type and
`i` is a valid instance type. -/
theorem C20_attachable_valid (v : VolumeType) (i : InstanceType)
    (h : VolumeType.ValidateAttachedOn v i = true) :
    VolumeType.IsValid v = true ∧ InstanceType.IsValid i = true := by
  unfold VolumeType.ValidateAttachedOn indexSlice at h
  cases hl : VolumeTypeAttachConstraint.lookup v with
  | none => simp [hl, ValidateAttachedOn.loop] at h
  | some l =>
    simp only [hl] at h
    have hi : i ∈ l := (ValidateAttachedOn_loop_iff i l).1 h
    have hm := lookup_mem _ _ _ hl
    simp only [VolumeTypeAttachConstraint, List.mem_cons, Prod.mk.injEq, List.mem_nil_iff,
      or_false] at hm
    rcases hm with hm | hm | hm | hm | hm | hm | hm <;>
    · obtain ⟨hv, hlist⟩ := hm
      subst hv
      subst hlist
      simp only [List.mem_cons, List.mem_singleton, List.mem_nil_iff, or_false] at hi
      refine ⟨by decide, ?_⟩
      rcases hi with rfl | rfl | rfl | rfl | rfl | rfl | rfl | rfl <;> decide

/-- C20, witness: the volume type `NeonSANHDDVolumeType` on the instance type
`HighPerformanceSANInstanceType`. -/
theorem C20_attachable_valid_witness :
    VolumeType.IsValid NeonSANHDDVolumeType = true ∧
    InstanceType.IsValid HighPerformanceSANInstanceType = true :=
  C20_attachable_valid NeonSANHDDVolumeType HighPerformanceSANInstanceType (by decide)

/-- C13: for every option mapping on which `NewQingStorageClassFromMap` succeeds
without a topology, every field whose key is absent from the mapping takes its
default: `DefaultVolumeType` without a `type` key, the default filesystem
without an `fsType` key, 2 without a `replica` key, no tags without a `tags`
key; and the empty mapping succeeds with the four defaults. The empty string is
taken not to be accepted by `IsValidFileSystemType`. -/
theorem C13_defaults (ext : Externals) (opt : List (String × String)) (sc : QingStorageClass)
    (hempty : ext.IsValidFileSystemType "" = false)
    (h : NewQingStorageClassFromMap ext opt none = .ok sc) :
    ((∀ e ∈ opt, ¬ keyIs StorageClassTypeName e.1) → sc.GetDiskType = DefaultVolumeType) ∧
    ((∀ e ∈ opt, ¬ keyIs StorageClassFsTypeName e.1) →
      sc.GetFsType = ext.DefaultFileSystem) ∧
    ((∀ e ∈ opt, ¬ keyIs StorageClassReplicaName e.1) → sc.GetReplica = 2) ∧
    ((∀ e ∈ opt, ¬ keyIs StorageClassTagsName e.1) → sc.GetTags = []) ∧
    NewQingStorageClassFromMap ext [] none =
      .ok { diskType := DefaultVolumeType, fsType := ext.DefaultFileSystem, replica := 2,
            tags := [] } := by
  have hnil : NewQingStorageClassFromMap ext [] none =
      .ok { diskType := DefaultVolumeType, fsType := ext.DefaultFileSystem, replica := 2,
            tags := [] } := by
    have hl : NewQingStorageClassFromMap.loop ext initLocals [] = .ok initLocals := rfl
    rw [NewQingStorageClassFromMap_of_loop_ok ext [] none initLocals hl]
    have hr : resolvedType initLocals.volType none = DefaultVolumeType := by decide
    have hv : VolumeType.IsValid DefaultVolumeType = true := by decide
    have hrep : IsValidReplica initLocals.replica = false := by decide
    have hfs : initLocals.fsType = "" := rfl
    simp [hr, hv, hrep, hfs, hempty, DefaultDiskReplicaType, DiskMultiReplicaType]
    rfl
  cases hl : NewQingStorageClassFromMap.loop ext initLocals opt with
  | error err =>
    rw [NewQingStorageClassFromMap_of_loop_error ext opt none err hl] at h
    cases h
  | ok st =>
    rw [NewQingStorageClassFromMap_of_loop_ok ext opt none st hl] at h
    cases hv : VolumeType.IsValid (resolvedType st.volType none) with
    | false => simp [hv] at h
    | true =>
      simp only [hv, Bool.true_eq_false, if_false] at h
      injection h with h
      subst h
      have facts := loop_facts ext opt initLocals st hl
      refine ⟨?_, ?_, ?_, ?_, hnil⟩
      · intro hno
        rcases facts.volType with ⟨heq, _⟩ | ⟨e, he, hk, _⟩
        · simp only [QingStorageClass.GetDiskType, heq]
          decide
        · exact absurd hk (hno e he)
      · intro hno
        rcases facts.fsType with ⟨heq, _⟩ | ⟨e, he, hk, _⟩
        · have hfs : st.fsType = "" := by rw [heq]; rfl
          simp [QingStorageClass.GetFsType, hfs, hempty]
        · exact absurd hk (hno e he)
      · intro hno
        rcases facts.replica with ⟨heq, _⟩ | ⟨e, he, hk, _⟩
        · have hrep : IsValidReplica st.replica = false := by rw [heq]; decide
          simp [QingStorageClass.GetReplica, hrep, DefaultDiskReplicaType, DiskMultiReplicaType]
        · exact absurd hk (hno e he)
      · intro hno
        rcases facts.tags with ⟨heq, _⟩ | ⟨e, he, hk, _, _⟩
        · simp only [QingStorageClass.GetTags, heq]
          rfl
        · exact absurd hk (hno e he)

/-- C13, witness: the mapping with only a `replica` key, which gets the default
volume type, the default filesystem and no tags. -/
theorem C13_defaults_witness :
    stdExt.IsValidFileSystemType "" = false ∧
    NewQingStorageClassFromMap stdExt [("replica", "1")] none =
      .ok { diskType := 100, fsType := "ext4", replica := 1, tags := [] } ∧
    QingStorageClass.GetDiskType
      { diskType := 100, fsType := "ext4", replica := 1, tags := [] } = DefaultVolumeType ∧
    QingStorageClass.GetFsType
      { diskType := 100, fsType := "ext4", replica := 1, tags := [] } =
        stdExt.DefaultFileSystem ∧
    QingStorageClass.GetTags
      { diskType := 100, fsType := "ext4", replica := 1, tags := [] } = [] ∧
    NewQingStorageClassFromMap stdExt [] none =
      .ok { diskType := DefaultVolumeType, fsType := stdExt.DefaultFileSystem, replica := 2,
            tags := [] } :=
  have h := C13_defaults stdExt [("replica", "1")]
    { diskType := 100, fsType := "ext4", replica := 1, tags := [] } (by decide) (by decide)
  ⟨by decide, by decide, h.1 (by decide), h.2.1 (by decide), h.2.2.2.1 (by decide),
    h.2.2.2.2⟩

/-- An entry with an unrecognized key can be left out of the loop. -/
theorem loop_insert_other (ext : Externals) (k v : String)
    (h1 : ¬ keyIs StorageClassTypeName k) (h2 : ¬ keyIs StorageClassFsTypeName k)
    (h3 : ¬ keyIs StorageClassReplicaName k) (h4 : ¬ keyIs StorageClassTagsName k)
    (opt2 : List (String × String)) :
    ∀ (opt1 : List (String × String)) (st : Locals),
      NewQingStorageClassFromMap.loop ext st (opt1 ++ (k, v) :: opt2) =
        NewQingStorageClassFromMap.loop ext st (opt1 ++ opt2) := by
  intro opt1
  induction opt1 with
  | nil =>
    intro st
    rw [List.nil_append, List.nil_append, loop_cons, body_other ext st v h1 h2 h3 h4]
  | cons e rest ih =>
    intro st
    obtain ⟨k1, v1⟩ := e
    rw [List.cons_append, List.cons_append, loop_cons, loop_cons]
    cases hb : NewQingStorageClassFromMap.body ext st k1 v1 with
    | error err => rfl
    | ok st1 => exact ih st1

/-- C14: for every option mapping, every topology, every key whose lower-cased
form is none of the four recognized names, and every value,
`NewQingStorageClassFromMap` returns the same result (the same storage class or
the same error) on the mapping extended with this key, wherever the new entry
comes in the iteration order, as on the mapping itself. -/
theorem C14_unrecognized_key (ext : Externals) (opt1 opt2 : List (String × String))
    (k v : String) (topology : Option Topology)
    (h1 : ¬ keyIs StorageClassTypeName k) (h2 : ¬ keyIs StorageClassFsTypeName k)
    (h3 : ¬ keyIs StorageClassReplicaName k) (h4 : ¬ keyIs StorageClassTagsName k) :
    NewQingStorageClassFromMap ext (opt1 ++ (k, v) :: opt2) topology =
      NewQingStorageClassFromMap ext (opt1 ++ opt2) topology := by
  unfold NewQingStorageClassFromMap
  rw [loop_insert_other ext k v h1 h2 h3 h4 opt2 opt1]

/-- C14, witness: the unrecognized key `zone` between a `type` and a `replica`. -/
theorem C14_unrecognized_key_witness :
    NewQingStorageClassFromMap stdExt ([("type", "0")] ++ ("zone", "pek3a") :: [("replica", "1")])
        none =
      NewQingStorageClassFromMap stdExt ([("type", "0")] ++ [("replica", "1")]) none :=
  C14_unrecognized_key stdExt [("type", "0")] [("replica", "1")] "zone" "pek3a" none
    (by decide) (by decide) (by decide) (by decide)

/-- C15: for every option mapping with a `type` key or a `replica` key whose
value `strconv.Atoi` does not read, and every topology,
`NewQingStorageClassFromMap` returns an error and no storage class, whatever the
other entries are. -/
theorem C15_malformed_integer (ext : Externals) (opt : List (String × String))
    (topology : Option Topology) (k v : String) (hmem : (k, v) ∈ opt)
    (hkey : keyIs StorageClassTypeName k ∨ keyIs StorageClassReplicaName k)
    (hbad : ∀ iv, Atoi v ≠ .ok iv) :
    ∃ err, NewQingStorageClassFromMap ext opt topology = .error err := by
  cases hl : NewQingStorageClassFromMap.loop ext initLocals opt with
  | error err => exact ⟨err, NewQingStorageClassFromMap_of_loop_error ext opt topology err hl⟩
  | ok st =>
    exfalso
    have hall := (loop_ok_iff ext opt initLocals).1 ⟨st, hl⟩
    have hv := hall (k, v) hmem
    rcases hkey with hk | hk
    · obtain ⟨iv, hiv⟩ := hv.1 hk
      exact hbad iv hiv
    · obtain ⟨iv, hiv⟩ := hv.2.2 hk
      exact hbad iv hiv

/-- C15, witness: a valid `type` and the `replica` value `abc`. -/
theorem C15_malformed_integer_witness :
    ∃ err, NewQingStorageClassFromMap stdExt [("type", "100"), ("replica", "abc")] none =
      .error err :=
  C15_malformed_integer stdExt [("type", "100"), ("replica", "abc")] none "replica" "abc"
    (by simp) (Or.inr (by decide))
    (by
      intro iv h
      have he : Atoi "abc" = .error (.numError "abc") := by decide
      rw [he] at h
      cases h)

/-- Keys of the same lower-cased form pass the same tests of the `switch`: for
every lower-casing function `lower` for which the tests of the `switch` are the
comparisons of `lower k` with the lower-cased option names, as they are for
`strings.ToLower`. -/
theorem SameKeyTests.of_lower (lower : String → String)
    (hlower : ∀ name ∈ [StorageClassTypeName, StorageClassFsTypeName,
      StorageClassReplicaName, StorageClassTagsName],
      ∀ k, keyIs name k ↔ lower k = lower name)
    (k1 k2 : String) (h : lower k1 = lower k2) : SameKeyTests k1 k2 := by
  intro name hn
  rw [hlower name hn k1, hlower name hn k2, h]

theorem SameKeyTests.of_ToLower (k1 k2 : String) (h : ToLower k1 = ToLower k2) :
    SameKeyTests k1 k2 :=
  SameKeyTests.of_lower ToLower (fun _ _ _ => Iff.rfl) k1 k2 h

/-- The loop body reads the key only through the tests of the `switch`. -/
theorem body_key_congr (ext : Externals) (st : Locals) (k1 k2 v : String)
    (h : SameKeyTests k1 k2) :
    NewQingStorageClassFromMap.body ext st k1 v =
      NewQingStorageClassFromMap.body ext st k2 v := by
  have ht := h StorageClassTypeName (by simp)
  have hf := h StorageClassFsTypeName (by simp)
  have hr := h StorageClassReplicaName (by simp)
  have hg := h StorageClassTagsName (by simp)
  by_cases h1 : keyIs StorageClassTypeName k1
  · rw [body_type ext st v h1, body_type ext st v (ht.1 h1)]
  · by_cases h2 : keyIs StorageClassFsTypeName k1
    · rw [body_fsType ext st v h2, body_fsType ext st v (hf.1 h2)]
    · by_cases h3 : keyIs StorageClassReplicaName k1
      · rw [body_replica ext st v h3, body_replica ext st v (hr.1 h3)]
      · by_cases h4 : keyIs StorageClassTagsName k1
        · rw [body_tags ext st v h4, body_tags ext st v (hg.1 h4)]
        · rw [body_other ext st v h1 h2 h3 h4,
            body_other ext st v (fun x => h1 (ht.2 x)) (fun x => h2 (hf.2 x))
              (fun x => h3 (hr.2 x)) (fun x => h4 (hg.2 x))]

theorem loop_key_congr (ext : Externals) (opt1 opt2 : List (String × String))
    (h : SameUpToKeyCase opt1 opt2) :
    ∀ st : Locals, NewQingStorageClassFromMap.loop ext st opt1 =
      NewQingStorageClassFromMap.loop ext st opt2 := by
  unfold SameUpToKeyCase at h
  induction h with
  | nil => intro st; rfl
  | @cons a b l1 l2 hab _ ih =>
    intro st
    obtain ⟨k1, v1⟩ := a
    obtain ⟨k2, v2⟩ := b
    simp only at hab
    obtain ⟨hk, hv⟩ := hab
    subst hv
    rw [loop_cons, loop_cons, body_key_congr ext st k1 k2 v1 hk]
    cases hb : NewQingStorageClassFromMap.body ext st k2 v1 with
    | error err => rfl
    | ok st1 => exact ih st1

theorem countP_key_congr (name : String)
    (hn : name ∈ [StorageClassTypeName, StorageClassFsTypeName, StorageClassReplicaName,
      StorageClassTagsName])
    (opt1 opt2 : List (String × String)) (hc : SameUpToKeyCase opt1 opt2) :
    opt2.countP (fun e => decide (keyIs name e.1)) =
      opt1.countP (fun e => decide (keyIs name e.1)) := by
  unfold SameUpToKeyCase at hc
  induction hc with
  | nil => rfl
  | @cons a b l1 l2 hab _ ih =>
    have hiff : keyIs name b.1 ↔ keyIs name a.1 := (hab.1 name hn).symm
    have hd : decide (keyIs name b.1) = decide (keyIs name a.1) := by
      by_cases hb : keyIs name b.1
      · rw [decide_eq_true hb, decide_eq_true (hiff.1 hb)]
      · rw [decide_eq_false hb, decide_eq_false (fun ha => hb (hiff.2 ha))]
    rw [List.countP_cons, List.countP_cons, ih, hd]

theorem RecognizedKeysOnce.of_sameUpToKeyCase {opt1 opt2 : List (String × String)}
    (h : RecognizedKeysOnce opt1) (hc : SameUpToKeyCase opt1 opt2) :
    RecognizedKeysOnce opt2 := by
  intro name hn
  rw [countP_key_congr name hn opt1 opt2 hc]
  exact h name hn

/-- Keys that are pairwise distinct after lower-casing hold each recognized key
at most once. -/
theorem RecognizedKeysOnce.of_nodup :
    ∀ (opt : List (String × String)), (opt.map (fun e => ToLower e.1)).Nodup →
      RecognizedKeysOnce opt := by
  intro opt hnd name _
  induction opt with
  | nil => simp
  | cons x xs ih =>
    rw [List.map_cons, List.nodup_cons] at hnd
    rw [List.countP_cons]
    have hrest := ih hnd.2
    by_cases hx : keyIs name x.1
    · have hzero : xs.countP (fun e => decide (keyIs name e.1)) = 0 := by
        by_contra hne
        obtain ⟨b, hb, hpb⟩ := List.countP_pos_iff.1 (Nat.pos_of_ne_zero hne)
        have hkb : keyIs name b.1 := by simpa using hpb
        apply hnd.1
        rw [List.mem_map]
        exact ⟨b, hb, hkb.trans hx.symm⟩
      rw [hzero]
      split <;> omega
    · have hd : decide (keyIs name x.1) = false := by simpa using hx
      simp only [hd, Bool.false_eq_true, if_false]
      exact hrest

/-- C16: for every option mapping in which each recognized key occurs at most
once up to letter case, and every topology, replacing keys by strings of the
same lower-cased form (more generally: by strings that pass the same tests of
the `switch`, as every string of the same lower-cased form does) leaves the
result of `NewQingStorageClassFromMap` unchanged: it is the same result in the
same iteration order, and in every other iteration order the same storage class
or a failure as well; the values are used as given: a non-empty `fsType` value
is the fsType of the storage class, letter for letter. -/
theorem C16_key_case (ext : Externals) (opt1 opt2 opt3 : List (String × String))
    (topology : Option Topology) (honce : RecognizedKeysOnce opt1)
    (hcase : SameUpToKeyCase opt1 opt2) (hperm : opt2.Perm opt3) :
    NewQingStorageClassFromMap ext opt1 topology =
      NewQingStorageClassFromMap ext opt2 topology ∧
    (NewQingStorageClassFromMap ext opt1 topology).toOption =
      (NewQingStorageClassFromMap ext opt3 topology).toOption ∧
    (∀ sc, NewQingStorageClassFromMap ext opt1 topology = .ok sc →
      ∀ e ∈ opt1, keyIs StorageClassFsTypeName e.1 → e.2 ≠ "" → sc.GetFsType = e.2) := by
  have h12 : NewQingStorageClassFromMap ext opt1 topology =
      NewQingStorageClassFromMap ext opt2 topology := by
    unfold NewQingStorageClassFromMap
    rw [loop_key_congr ext opt1 opt2 hcase]
  refine ⟨h12, ?_, ?_⟩
  · rw [h12]
    exact order_independent ext opt2 opt3 topology hperm (honce.of_sameUpToKeyCase hcase)
  · intro sc h e he hk hne
    cases hl : NewQingStorageClassFromMap.loop ext initLocals opt1 with
    | error err =>
      rw [NewQingStorageClassFromMap_of_loop_error ext opt1 topology err hl] at h
      cases h
    | ok st =>
      rw [NewQingStorageClassFromMap_of_loop_ok ext opt1 topology st hl] at h
      cases hv : VolumeType.IsValid (resolvedType st.volType topology) with
      | false => simp [hv] at h
      | true =>
        simp only [hv, Bool.true_eq_false, if_false] at h
        injection h with h
        subst h
        have hfs : st.fsType = e.2 := by
          rcases (loop_facts ext opt1 initLocals st hl).fsType with ⟨_, hno⟩ | ⟨a, ha, hka, heq⟩
          · exact absurd hk (hno e he)
          · rw [heq, honce.unique (by simp) ha he hka hk]
        have hvalid : ext.IsValidFileSystemType e.2 = true := by
          rcases ((loop_ok_iff ext opt1 initLocals).1 ⟨st, hl⟩ e he).2.1 hk with h0 | h0
          · exact absurd h0 hne
          · exact h0
        simp [QingStorageClass.GetFsType, hfs, hvalid]

/-- C16, witness: `fsType` written `FSTYPE`, `type` written `Type` and the
unrecognized key `É` written `é`, visited in another order, with the value
`xfs` kept as given, while the value `XFS` is rejected. -/
theorem C16_key_case_witness :
    SameUpToKeyCase [("fsType", "xfs"), ("type", "0"), ("É", "1")]
      [("FSTYPE", "xfs"), ("Type", "0"), ("é", "1")] ∧
    NewQingStorageClassFromMap stdExt [("fsType", "xfs"), ("type", "0"), ("É", "1")] none =
      NewQingStorageClassFromMap stdExt [("FSTYPE", "xfs"), ("Type", "0"), ("é", "1")] none ∧
    (NewQingStorageClassFromMap stdExt
        [("fsType", "xfs"), ("type", "0"), ("É", "1")] none).toOption =
      (NewQingStorageClassFromMap stdExt
        [("Type", "0"), ("FSTYPE", "xfs"), ("é", "1")] none).toOption ∧
    NewQingStorageClassFromMap stdExt [("fsType", "xfs"), ("type", "0"), ("É", "1")] none =
      .ok { diskType := 0, fsType := "xfs", replica := 2, tags := [] } ∧
    NewQingStorageClassFromMap stdExt [("fsType", "XFS"), ("type", "0"), ("É", "1")] none =
      .error (.unsupportedFilesystem "XFS") :=
  have hc : SameUpToKeyCase [("fsType", "xfs"), ("type", "0"), ("É", "1")]
      [("FSTYPE", "xfs"), ("Type", "0"), ("é", "1")] :=
    List.Forall₂.cons ⟨by decide, rfl⟩
      (List.Forall₂.cons ⟨by decide, rfl⟩
        (List.Forall₂.cons ⟨by decide, rfl⟩ List.Forall₂.nil))
  have h := C16_key_case stdExt [("fsType", "xfs"), ("type", "0"), ("É", "1")]
    [("FSTYPE", "xfs"), ("Type", "0"), ("é", "1")]
    [("Type", "0"), ("FSTYPE", "xfs"), ("é", "1")] none (by decide) hc
    (List.Perm.swap _ _ _)
  ⟨hc, h.1, h.2.1, by decide, by decide⟩

/-- C19: for every option mapping whose keys are pairwise distinct after
lower-casing, and every topology, any two iteration orders of the entries either
both fail, or both succeed with the same storage class (volume type, fsType,
replica and tags). -/
theorem C19_deterministic (ext : Externals) (opt1 opt2 : List (String × String))
    (topology : Option Topology)
    (hdistinct : (opt1.map (fun e => ToLower e.1)).Nodup) (hperm : opt1.Perm opt2) :
    (∃ err1 err2, NewQingStorageClassFromMap ext opt1 topology = .error err1 ∧
      NewQingStorageClassFromMap ext opt2 topology = .error err2) ∨
    (∃ sc, NewQingStorageClassFromMap ext opt1 topology = .ok sc ∧
      NewQingStorageClassFromMap ext opt2 topology = .ok sc) := by
  have h := order_independent ext opt1 opt2 topology hperm
    (RecognizedKeysOnce.of_nodup opt1 hdistinct)
  cases h1 : NewQingStorageClassFromMap ext opt1 topology with
  | error err1 =>
    cases h2 : NewQingStorageClassFromMap ext opt2 topology with
    | error err2 => exact Or.inl ⟨err1, err2, rfl, rfl⟩
    | ok sc2 =>
      rw [h1, h2] at h
      simp [Except.toOption] at h
  | ok sc1 =>
    cases h2 : NewQingStorageClassFromMap ext opt2 topology with
    | error err2 =>
      rw [h1, h2] at h
      simp [Except.toOption] at h
    | ok sc2 =>
      rw [h1, h2] at h
      simp only [Except.toOption, Option.some.injEq] at h
      exact Or.inr ⟨sc1, rfl, by rw [h]⟩

/-- C19, witness: three entries in two orders, both resolved to the same storage
class. -/
theorem C19_deterministic_witness :
    (∃ err1 err2,
      NewQingStorageClassFromMap stdExt [("Type", "5"), ("zone", "pek3a"), ("tags", "x,y")]
        none = .error err1 ∧
      NewQingStorageClassFromMap stdExt [("tags", "x,y"), ("Type", "5"), ("zone", "pek3a")]
        none = .error err2) ∨
    (∃ sc,
      NewQingStorageClassFromMap stdExt [("Type", "5"), ("zone", "pek3a"), ("tags", "x,y")]
        none = .ok sc ∧
      NewQingStorageClassFromMap stdExt [("tags", "x,y"), ("Type", "5"), ("zone", "pek3a")]
        none = .ok sc) :=
  C19_deterministic stdExt [("Type", "5"), ("zone", "pek3a"), ("tags", "x,y")]
    [("tags", "x,y"), ("Type", "5"), ("zone", "pek3a")] none (by decide) (by decide)

end Driver
